import Mathlib

/-!
Verification of the Icon Management engine (src/code.ts).

This file gives a shallow embedding, in Lean 4, of the parts of the plugin
whose behaviour the specification describes: the node classifier
(`isLikelyIcon`), the similarity scorer (`calculateIconSimilarity`,
`calculateNameSimilarity`, `levenshteinDistance`, `calculateVisualSimilarity`),
the duplicate clusterer (the grouping passes of `consolidateSimilarIcons`),
the consolidation transaction (`createComponentFromIconGroup`), the discovery
pipeline (`scanForIcons`) and the consistency analyzer
(`analyzeIconConsistency`).

Numbers are modelled as rationals, JavaScript strings as Lean strings
processed at the character-list level (so that `toLowerCase`, the regex
replacements and `includes` are fully executable), `Map`/`Set` as
insertion-ordered association lists (matching JavaScript iteration order),
and the asynchronous document accesses (`getNodeByIdAsync`,
`getMainComponentAsync`, preview export, client storage) as explicit
environment oracles.
-/

namespace IconMgmt

/-! ## Character and string primitives (JavaScript semantics) -/

/-- ASCII lower-casing of a character, as used by `String.prototype.toLowerCase`
on the identifier-like names this plugin manipulates. -/
def lowChar (c : Char) : Char :=
  if c.isUpper then Char.ofNat (c.toNat + 32) else c

/-- Lower-case every character of a character list. -/
def lowerList (s : List Char) : List Char := s.map lowChar

/-- Lower-case a string (`name.toLowerCase()`). -/
def lowerStr (s : String) : String := String.mk (lowerList s.data)

/-- `pat` occurs as a contiguous substring of `s`
(JavaScript `s.includes(pat)`). -/
def containsList (s pat : List Char) : Bool :=
  (List.range (s.length + 1)).any (fun i => pat.isPrefixOf (s.drop i))

/-- String form of `containsList`. -/
def containsStr (s pat : String) : Bool := containsList s.data pat.data

/-- Character class `[-_\s\.]` of the normalisation regexes. -/
def isSep (c : Char) : Bool :=
  c == '-' || c == '_' || c.isWhitespace || c == '.'

/-- Character class `[a-z]`. -/
def isLowerAlpha (c : Char) : Bool := 'a' ≤ c && c ≤ 'z'

/-- Character class `[a-zA-Z0-9-_]` used by the library-name pattern. -/
def isLibChar (c : Char) : Bool :=
  c.isAlpha || c.isDigit || c == '-' || c == '_'

/-- `str.trim()`. -/
def trimList (s : List Char) : List Char :=
  ((s.dropWhile Char.isWhitespace).reverse.dropWhile Char.isWhitespace).reverse

/-- The alternation `(icon|svg|vector|graphic|outline|filled|solid)` removed by
the name-normalisation regex. -/
def iconKeywords : List String :=
  ["icon", "svg", "vector", "graphic", "outline", "filled", "solid"]

/-- One step of the global keyword-removal regex: at each position, if one of
the keywords starts here it is removed and scanning resumes after it, otherwise
the character is kept.  The fuel argument bounds the number of steps; it is
instantiated with the length of the input, which always suffices because every
step consumes at least one character. -/
def stripKwGo : Nat → List Char → List Char
  | _, [] => []
  | 0, s => s
  | fuel + 1, c :: cs =>
    match iconKeywords.find? (fun w => w.data.isPrefixOf (c :: cs)) with
    | some w => stripKwGo fuel ((c :: cs).drop w.length)
    | none => c :: stripKwGo fuel cs

/-- `.replace(/(icon|svg|vector|graphic|outline|filled|solid)/g, '')`. -/
def stripKw (s : List Char) : List Char := stripKwGo s.length s

/-- The full name normalisation used for bucket keys and the non-library
branch of name similarity:
`.toLowerCase().replace(/[-_\s\.]/g,'').replace(/\d+/g,'')`
`.replace(/(icon|svg|vector|graphic|outline|filled|solid)/g,'')`
`.replace(/[^a-z]/g,'')`. -/
def normalizeName (s : List Char) : List Char :=
  let a := lowerList s
  let b := a.filter (fun c => !isSep c)
  let d := b.filter (fun c => !c.isDigit)
  (stripKw d).filter isLowerAlpha

/-- The lighter normalisation used inside the same-library branch of
`calculateNameSimilarity`:
`.toLowerCase().replace(/[-_\s\.]/g,'').replace(/\d+/g,'')`. -/
def normalizeLib (s : List Char) : List Char :=
  ((lowerList s).filter (fun c => !isSep c)).filter (fun c => !c.isDigit)

/-- Matching of the library pattern `/^([a-zA-Z0-9-_]+)\/(.+)$/`: a maximal
non-empty run of `[a-zA-Z0-9-_]` characters, a literal slash, and a non-empty
remainder. -/
def parseLibrary (s : List Char) : Option (List Char × List Char) :=
  let lib := s.takeWhile isLibChar
  let rest := s.dropWhile isLibChar
  match lib, rest with
  | [], _ => none
  | _, '/' :: tail => if tail.isEmpty then none else some (lib, tail)
  | _, _ => none

/-! ## Levenshtein distance

`levenshteinDistance` is the dynamic-programming matrix of the source,
built row by row; `levRec` is the textbook recursion, used as the
specification against which the matrix form is proved, which in turn
yields symmetry of the distance. -/

/-- Reference recursion for the edit distance (unit costs). -/
def levRec : List Char → List Char → Nat
  | [], ys => ys.length
  | _ :: xs, [] => xs.length + 1
  | x :: xs, y :: ys =>
    if x = y then levRec xs ys
    else 1 + min (levRec xs ys) (min (levRec (x :: xs) ys) (levRec xs (y :: ys)))
  termination_by xs ys => xs.length + ys.length
  decreasing_by all_goals simp_arith

/-- The inner `j` loop of the matrix construction: given the previous row
(starting at column `j-1`) and the cell to the left, produce the cells
`j, j+1, …` of the current row.  `p` is the diagonal neighbour
`matrix[i-1][j-1]`, `cur` the left neighbour `matrix[i][j-1]`, and the head of
`ps` the upper neighbour `matrix[i-1][j]`. -/
def levRowGo (c : Char) : List Char → List Nat → Nat → List Nat
  | [], _, _ => []
  | _ :: _, [], _ => []
  | a :: as, p :: ps, cur =>
    let up := ps.headD 0
    let cell := if c = a then p else 1 + min p (min cur up)
    cell :: levRowGo c as ps cell

/-- The outer `i` step of the matrix construction: from row `i-1` build row
`i`, whose column 0 holds `i` (one more than the head of the previous row). -/
def levStep (str1 : List Char) (prev : List Nat) (c : Char) : List Nat :=
  match prev with
  | [] => []
  | p :: _ => (p + 1) :: levRowGo c str1 prev (p + 1)

/-- Levenshtein distance exactly as computed by the source: first row
`0, 1, …, |str1|`, one new row per character of `str2`, answer in the bottom
right corner. -/
def levenshteinDistance (str1 str2 : List Char) : Nat :=
  (str2.foldl (levStep str1) (List.range (str1.length + 1))).getLastD 0

/-- Row `i` of the matrix, with entries expressed through `levRec`: position
`j` of the row holds the distance between the reversed consumed part of
`str2` (argument `t`) and the reversed prefix of `str1` ending at `j`
(accumulated in `r`). -/
def rowFrom (t : List Char) : List Char → List Char → List Nat
  | _, [] => []
  | r, a :: as => levRec t (a :: r) :: rowFrom t (a :: r) as

theorem levRec_nil_right (xs : List Char) : levRec xs [] = xs.length := by
  cases xs <;> simp [levRec]

theorem levRowGo_spec (c : Char) (t : List Char) :
    ∀ (s1 r : List Char),
      levRowGo c s1 (levRec t r :: rowFrom t r s1) (levRec (c :: t) r) =
        rowFrom (c :: t) r s1 := by
  intro s1
  induction s1 with
  | nil => intro r; simp [levRowGo, rowFrom]
  | cons a as ih =>
    intro r
    show levRowGo c (a :: as)
        (levRec t r :: levRec t (a :: r) :: rowFrom t (a :: r) as)
        (levRec (c :: t) r) = rowFrom (c :: t) r (a :: as)
    have hcell : (if c = a then levRec t r
        else 1 + min (levRec t r)
          (min (levRec (c :: t) r) (levRec t (a :: r)))) =
        levRec (c :: t) (a :: r) := by
      rw [show levRec (c :: t) (a :: r) =
        (if c = a then levRec t r
          else 1 + min (levRec t r)
            (min (levRec (c :: t) r) (levRec t (a :: r)))) from by
          simp [levRec]]
    simp only [levRowGo, List.headD, rowFrom]
    rw [hcell]
    exact congrArg (levRec (c :: t) (a :: r) :: ·) (ih (a :: r))

theorem levStep_row (s1 : List Char) (c : Char) (t : List Char) :
    levStep s1 (levRec t [] :: rowFrom t [] s1) c =
      levRec (c :: t) [] :: rowFrom (c :: t) [] s1 := by
  have hhead : levRec t [] + 1 = levRec (c :: t) [] := by
    simp [levRec_nil_right]
  have hrow : levRowGo c s1 (levRec t [] :: rowFrom t [] s1) (levRec (c :: t) []) =
      rowFrom (c :: t) [] s1 := levRowGo_spec c t s1 []
  show (levRec t [] + 1) :: levRowGo c s1 (levRec t [] :: rowFrom t [] s1)
      (levRec t [] + 1) = levRec (c :: t) [] :: rowFrom (c :: t) [] s1
  rw [hhead, hrow]

theorem levFold_spec (s1 : List Char) :
    ∀ (l2 t : List Char),
      l2.foldl (levStep s1) (levRec t [] :: rowFrom t [] s1) =
      levRec (l2.reverse ++ t) [] :: rowFrom (l2.reverse ++ t) [] s1 := by
  intro l2
  induction l2 with
  | nil => intro t; simp
  | cons c rest ih =>
    intro t
    rw [List.foldl_cons, levStep_row, ih (c :: t)]
    simp [List.reverse_cons, List.append_assoc]

theorem rowFrom_nil_left :
    ∀ (s1 r : List Char),
      rowFrom [] r s1 = (List.range s1.length).map (fun j => r.length + 1 + j) := by
  intro s1
  induction s1 with
  | nil => intro r; simp [rowFrom]
  | cons a as ih =>
    intro r
    have h : levRec [] (a :: r) = r.length + 1 := by simp [levRec]
    simp only [rowFrom, h, ih (a :: r), List.length_cons,
      List.range_succ_eq_map, List.map_cons, List.map_map, List.cons.injEq]
    refine ⟨trivial, ?_⟩
    apply List.map_congr_left
    intro j _
    simp only [Function.comp_apply]
    omega

theorem range_eq_row0 (s1 : List Char) :
    List.range (s1.length + 1) = levRec [] [] :: rowFrom [] [] s1 := by
  have h0 : levRec [] [] = 0 := by simp [levRec]
  rw [List.range_succ_eq_map, h0, rowFrom_nil_left]
  simp only [List.cons.injEq, true_and, List.length_nil]
  apply List.map_congr_left
  intro j _
  omega

theorem rowFrom_getLastD (t : List Char) :
    ∀ (s1 r : List Char),
      (rowFrom t r s1).getLastD (levRec t r) = levRec t (s1.reverse ++ r) := by
  intro s1
  induction s1 with
  | nil => intro r; simp [rowFrom]
  | cons a as ih =>
    intro r
    simp only [rowFrom, List.getLastD_cons, ih (a :: r), List.reverse_cons,
      List.append_assoc, List.singleton_append]

/-- The matrix implementation computes the reference recursion (applied to the
reversed strings, reflecting that the matrix grows prefixes while the
recursion peels heads). -/
theorem levenshteinDistance_eq (s1 s2 : List Char) :
    levenshteinDistance s1 s2 = levRec s2.reverse s1.reverse := by
  unfold levenshteinDistance
  rw [range_eq_row0 s1, levFold_spec s1 s2 []]
  simp only [List.append_nil, List.getLastD_cons]
  have h := rowFrom_getLastD s2.reverse s1 []
  simpa using h

/-- The reference recursion is symmetric. -/
theorem levRec_symm : ∀ (xs ys : List Char), levRec xs ys = levRec ys xs
  | [], [] => rfl
  | [], _ :: _ => by simp [levRec]
  | _ :: _, [] => by simp [levRec]
  | x :: xs, y :: ys => by
    have h1 := levRec_symm xs ys
    have h2 := levRec_symm (x :: xs) ys
    have h3 := levRec_symm xs (y :: ys)
    by_cases hxy : x = y
    · subst hxy
      simp [levRec, h1]
    · rw [show levRec (x :: xs) (y :: ys) =
        1 + min (levRec xs ys) (min (levRec (x :: xs) ys) (levRec xs (y :: ys)))
        from by simp [levRec, hxy]]
      rw [show levRec (y :: ys) (x :: xs) =
        1 + min (levRec ys xs) (min (levRec (y :: ys) xs) (levRec ys (x :: xs)))
        from by simp [levRec, Ne.symm hxy]]
      rw [h1, h2, h3]
      omega
  termination_by xs ys => xs.length + ys.length
  decreasing_by all_goals simp_arith

/-- The dynamic-programming distance is symmetric. -/
theorem levenshteinDistance_symm (s1 s2 : List Char) :
    levenshteinDistance s1 s2 = levenshteinDistance s2 s1 := by
  rw [levenshteinDistance_eq, levenshteinDistance_eq, levRec_symm]

/-! ## Node model -/

/-- The node kinds handled by the plugin (`node.type` tags). -/
inductive NodeType
  | COMPONENT
  | COMPONENT_SET
  | FRAME
  | INSTANCE
  | GROUP
  | VECTOR
  | BOOLEAN_OPERATION
  | PAGE
  | TEXT
  | ELLIPSE
  | RECTANGLE
  | POLYGON
  | STAR
  deriving DecidableEq

/-- One entry of a node's parent chain (`node.parent`, `parent.parent`, …). -/
structure Ancestor where
  id : String
  name : String
  type : NodeType
  bounds : Option (ℚ × ℚ)
  deriving DecidableEq

/-- Read snapshot of a document node: the metadata `isLikelyIcon` and the
similarity scorer consult.  `bounds` is `absoluteBoundingBox` (width, height),
`childTypes` the types of the direct children (what `findChild` and
`children.length` see), `ancestors` the parent chain starting at the immediate
parent, and `fills`/`strokes` the paint-type tags (`none` when the property is
absent on the node kind). -/
structure FigNode where
  id : String
  name : String
  type : NodeType
  bounds : Option (ℚ × ℚ)
  childTypes : List NodeType := []
  ancestors : List Ancestor := []
  fills : Option (List String) := none
  strokes : Option (List String) := none
  deriving DecidableEq

/-- The child types counted as vector/shape content. -/
def isShapeType (t : NodeType) : Bool :=
  t == NodeType.VECTOR || t == NodeType.BOOLEAN_OPERATION || t == NodeType.GROUP ||
  t == NodeType.ELLIPSE || t == NodeType.RECTANGLE || t == NodeType.POLYGON ||
  t == NodeType.STAR

/-- The icon keyword vocabulary of `isIconComponent`. -/
def iconComponentKeywords : List String :=
  ["icon", "ico", "symbol", "glyph", "pictogram", "sign", "mark", "badge",
   "arrow", "chevron", "star", "heart", "home", "user", "menu", "burger",
   "search", "close", "check", "plus", "minus", "edit", "delete", "trash",
   "settings", "info", "warning", "error", "success", "lock", "unlock",
   "eye", "bell", "mail", "phone", "calendar", "clock", "location", "pin",
   "share", "download", "upload", "save", "print", "copy", "paste",
   "undo", "redo", "refresh", "reload", "sync", "play", "pause", "stop",
   "back", "forward", "next", "prev", "up", "down", "left", "right",
   "expand", "collapse", "zoom", "filter", "sort", "grid", "list",
   "file", "folder", "document", "image", "video", "audio", "chart", "graph",
   "avatar", "profile", "account", "contact", "person", "people", "team",
   "notification", "alert", "message", "chat", "comment", "feedback",
   "dashboard", "analytics", "stats", "report", "data", "database",
   "cloud", "server", "network", "wifi", "bluetooth", "mobile", "desktop",
   "tablet", "device", "hardware", "software", "app", "application",
   "website", "web", "link", "url", "external", "internal", "anchor",
   "bookmark", "favorite", "like", "love", "heart", "thumbs", "rating",
   "cart", "shopping", "store", "shop", "buy", "sell", "payment", "credit",
   "card", "money", "dollar", "price", "cost", "invoice", "receipt",
   "circle", "square", "triangle", "diamond", "polygon", "shape",
   "dot", "bullet", "marker", "pointer", "cursor", "target", "crosshair",
   "facebook", "twitter", "instagram", "linkedin", "youtube", "tiktok",
   "github", "gitlab", "slack", "discord", "telegram", "whatsapp",
   "google", "microsoft", "apple", "amazon", "aws", "azure", "meta",
   "dropbox", "spotify", "netflix", "adobe", "figma", "sketch", "canva",
   "zoom", "teams", "skype", "webex", "notion", "confluence", "jira",
   "trello", "asana", "monday", "clickup", "basecamp", "linear",
   "salesforce", "hubspot", "mailchimp", "constant", "sendinblue",
   "stripe", "paypal", "square", "shopify", "woocommerce", "magento",
   "wordpress", "drupal", "squarespace", "wix", "webflow",
   "chrome", "firefox", "safari", "edge", "opera", "brave", "vivaldi",
   "android", "ios", "windows", "macos", "linux", "ubuntu",
   "vscode", "atom", "sublime", "intellij", "pycharm", "eclipse",
   "docker", "kubernetes", "jenkins", "travis", "circleci", "gitlab-ci",
   "npm", "yarn", "pip", "composer", "maven", "gradle",
   "intercom", "zendesk", "freshworks", "helpscout", "crisp",
   "calendly", "acuity", "booking", "doodle", "when2meet",
   "analytics", "mixpanel", "amplitude", "hotjar", "fullstory",
   "segment", "optimizely", "ab-test", "firebase", "supabase",
   "loading", "spinner", "progress", "complete", "done", "finished",
   "pending", "waiting", "active", "inactive", "disabled", "enabled",
   "online", "offline", "connected", "disconnected", "sync", "synced",
   "lucide", "heroicons", "feather", "material", "fontawesome", "bootstrap",
   "tabler", "phosphor", "remix", "ant", "carbon", "fluent", "eva"]

/-- `s` contains at least one of the given terms as a substring. -/
def containsAny (s : List Char) (terms : List String) : Bool :=
  terms.any (fun t => containsList s t.data)

/-- `isIconComponent`: the lower-cased name contains one of the icon
keywords. -/
def isIconComponent (node : FigNode) : Bool :=
  containsAny (lowerList node.name.data) iconComponentKeywords

/-- The UI-component vocabulary rejected for Components / ComponentSets. -/
def componentUITerms : List String :=
  ["button", "input", "card", "modal", "dialog", "form", "banner",
   "navbar", "header", "footer", "sidebar"]

/-- The (wider) UI-component vocabulary rejected for Instances. -/
def instanceUITerms : List String :=
  ["button", "input", "card", "modal", "dialog", "dropdown", "select",
   "checkbox", "radio", "toggle", "switch", "slider", "navbar", "header",
   "footer", "sidebar", "menu", "tab", "badge", "chip", "avatar", "form",
   "field", "banner", "alert", "notification"]

/-- The icon-name markers shared by the scoring branches
(`name.includes('icon') || name.includes('/') || …`). -/
def iconNameMarkers : List String :=
  ["icon", "/", "lucide", "feather", "heroicon", "material", "fa-", "fi-"]

/-- `commonIconSizes` of the Component branch. -/
def componentCommonSizes : List ℚ :=
  [12, 14, 16, 18, 20, 22, 24, 28, 32, 36, 40, 44, 48, 56, 64, 72, 80, 96, 128]

/-- `commonIconSizes` of the Instance branch. -/
def instanceCommonSizes : List ℚ :=
  [12, 14, 16, 18, 20, 22, 24, 28, 32, 36, 40, 44, 48, 56, 64, 72, 80]

/-- `standardIconSizes` of the Frame branch. -/
def standardIconSizes : List ℚ :=
  [12, 14, 16, 18, 20, 22, 24, 28, 32, 36, 40, 44, 48, 56, 64, 72, 80, 96, 128]

/-- The ancestor walk of the Vector/BooleanOperation/Group branch: stop at the
page; reject as soon as some ancestor Frame is square-ish (aspect 0.5–2.0)
and icon-sized (≤ 200 px). -/
def insideIconFrame : List Ancestor → Bool
  | [] => false
  | a :: rest =>
    if a.type == NodeType.PAGE then false
    else if a.type == NodeType.FRAME then
      match a.bounds with
      | some (pw, ph) =>
        if 0.5 ≤ pw / ph ∧ pw / ph ≤ 2.0 ∧ max pw ph ≤ 200 then true
        else insideIconFrame rest
      | none => insideIconFrame rest
    else insideIconFrame rest

/-- The classifier `isLikelyIcon`, translated branch by branch.  A missing
bounding box yields `false` before any branch is considered; the whole
function is total, matching the source's outer catch-all that swallows any
failure and returns `false`. -/
def isLikelyIcon (node : FigNode) : Bool :=
  match node.bounds with
  | none => false
  | some (w, h) =>
    let ar := w / h
    let size := max w h
    let name := lowerList node.name.data
    if node.type == NodeType.COMPONENT || node.type == NodeType.COMPONENT_SET then
      if containsAny name componentUITerms then false
      else if 800 < size then false
      else if ar < 0.05 ∨ 20 < ar then false
      else if node.type == NodeType.COMPONENT_SET then true
      else
        let hasIconName := containsAny name iconNameMarkers || isIconComponent node
        let isFromIconManagement := ("icon/".data).isPrefixOf name
        let s1 : Nat := if hasIconName || isFromIconManagement then 3 else 0
        let s2 : Nat :=
          if 6 ≤ size ∧ size ≤ 300 then 2
          else if 6 ≤ size ∧ size ≤ 800 then 1 else 0
        let s3 : Nat := if 0.3 ≤ ar ∧ ar ≤ 3.0 then 1 else 0
        let s4 : Nat := if node.childTypes.any isShapeType then 1 else 0
        let s5 : Nat :=
          if componentCommonSizes.any (fun s => |size - s| ≤ 2) then 1 else 0
        let s6 : Nat := if 0.95 ≤ ar ∧ ar ≤ 1.05 then 1 else 0
        decide (1 ≤ s1 + s2 + s3 + s4 + s5 + s6)
    else if node.type == NodeType.INSTANCE then
      if containsAny name instanceUITerms then false
      else
        let hasIconName := containsAny name iconNameMarkers || isIconComponent node
        let isFromIconManagement := ("icon/".data).isPrefixOf name
        if 120 < size ∧ ¬hasIconName ∧ ¬isFromIconManagement then false
        else if 300 < size ∧ ¬isFromIconManagement then false
        else if (hasIconName || isFromIconManagement) ∧ (ar < 0.3 ∨ 3.0 < ar) then
          false
        else if ¬(hasIconName || isFromIconManagement) ∧ (ar < 0.5 ∨ 2.0 < ar) then
          false
        else
          let s1 : Nat := if hasIconName then 3 else 0
          let s2 : Nat := if isFromIconManagement then 2 else 0
          let s3 : Nat := if 0.95 ≤ ar ∧ ar ≤ 1.05 then 2 else 0
          let s4 : Nat :=
            if instanceCommonSizes.any (fun s => |w - s| ≤ 2 ∧ |h - s| ≤ 2) then 2
            else 0
          let s5 : Nat := if size ≤ 64 then 1 else 0
          let s6 : Nat := if size ≤ 32 then 1 else 0
          decide (1 ≤ s1 + s2 + s3 + s4 + s5 + s6)
    else if node.type == NodeType.FRAME then
      if ar < 0.75 ∨ 1.33 < ar then false
      else if ¬(standardIconSizes.any (fun s => |w - s| ≤ 2 ∧ |h - s| ≤ 2)) then
        false
      else if ¬(node.childTypes.any isShapeType) then false
      else if 5 < node.childTypes.length then false
      else
        -- The source also computes `hasIconName` here but never uses it: the
        -- final test `isStandardSize && hasVectorContent` is always true on
        -- this path.
        true
    else if node.type == NodeType.VECTOR || node.type == NodeType.BOOLEAN_OPERATION
        || node.type == NodeType.GROUP then
      if insideIconFrame node.ancestors then false
      else
        let hasIconName := containsAny name iconNameMarkers || isIconComponent node
        decide (8 ≤ size ∧ size ≤ 200 ∧ 0.5 ≤ ar ∧ ar ≤ 2.0) && hasIconName
    else false

/-! ## Candidates -/

/-- The engine-owned candidate record (`IconInfo` of the source).  `preview`
and the variant data are carried as opaque strings; the `status` field uses
the source's string literals `"unresolved"`, `"instance"`, `"master"`. -/
structure IconInfo where
  id : String
  name : String
  type : NodeType
  width : ℚ
  height : ℚ
  page : String
  frameContext : Option String := none
  source : String
  preview : Option String := none
  status : String
  masterComponentId : Option String := none
  instanceCount : Option Nat := none
  hasInconsistency : Bool := false
  inconsistencyReasons : List String := []
  componentSet : Option String := none
  variants : Option Nat := none
  isNew : Option Bool := none
  isDuplicate : Option Bool := none
  isIgnored : Option Bool := none
  isMarkedForSwap : Option Bool := none
  deriving DecidableEq

/-! ## Similarity scorer -/

/-- `calculateNameSimilarity`: library-aware name comparison with
Levenshtein-based scoring. -/
def calculateNameSimilarity (name1 name2 : String) : ℚ :=
  match parseLibrary name1.data, parseLibrary name2.data with
  | some (lib1, icon1), some (lib2, icon2) =>
    if lowerList lib1 = lowerList lib2 then
      let norm1 := normalizeLib icon1
      let norm2 := normalizeLib icon2
      if norm1 = norm2 then 30
      else if norm1.length = 0 ∨ norm2.length = 0 then 0
      else
        let distance := levenshteinDistance norm1 norm2
        let maxLen := max norm1.length norm2.length
        ((Int.floor ((1 - (distance : ℚ) / (maxLen : ℚ)) * 30) : ℤ) : ℚ)
    else 5
  | _, _ =>
    let norm1 := normalizeName name1.data
    let norm2 := normalizeName name2.data
    if norm1 = norm2 then 30
    else if norm1.length = 0 ∨ norm2.length = 0 then 0
    else
      let distance := levenshteinDistance norm1 norm2
      let maxLen := max norm1.length norm2.length
      ((Int.floor ((1 - (distance : ℚ) / (maxLen : ℚ)) * 30) : ℤ) : ℚ)

/-- `calculateVisualSimilarity`: compare node type, fill counts and first fill
types, stroke counts and first stroke types, capped at 20. -/
def calculateVisualSimilarity (node1 node2 : FigNode) : ℚ :=
  let typeScore : ℚ := if node1.type = node2.type then 10 else 0
  let fillScore : ℚ :=
    match node1.fills, node2.fills with
    | some fills1, some fills2 =>
      if fills1.length = fills2.length then
        5 + (match fills1, fills2 with
          | t1 :: _, t2 :: _ => if t1 = t2 then (5 : ℚ) else 0
          | _, _ => 0)
      else 0
    | _, _ => 0
  let strokeScore : ℚ :=
    match node1.strokes, node2.strokes with
    | some strokes1, some strokes2 =>
      if strokes1.length = strokes2.length then
        5 + (match strokes1, strokes2 with
          | t1 :: _, t2 :: _ => if t1 = t2 then (5 : ℚ) else 0
          | _, _ => 0)
      else 0
    | _, _ => 0
  min 20 (typeScore + fillScore + strokeScore)

/-- `calculateIconSimilarity`.  The two `getNodeByIdAsync` lookups are an
explicit environment `env`; when either lookup fails the visual component is
silently skipped, as in the source's try/catch. -/
def calculateIconSimilarity (env : String → Option FigNode)
    (icon1 icon2 : IconInfo) : ℚ :=
  let sizeScore := max 0 (30 - |icon1.width - icon2.width| - |icon1.height - icon2.height|)
  let ratioScore :=
    max 0 (20 - |icon1.width / icon1.height - icon2.width / icon2.height| * 100)
  let nameScore := calculateNameSimilarity icon1.name icon2.name
  let sourceScore : ℚ := if icon1.source = icon2.source then 20 else 0
  let visualScore : ℚ :=
    match env icon1.id, env icon2.id with
    | some node1, some node2 => calculateVisualSimilarity node1 node2
    | _, _ => 0
  min 100 (sizeScore + ratioScore + nameScore + sourceScore + visualScore)

/-! ## Duplicate clusterer (the grouping passes of `consolidateSimilarIcons`) -/

/-- The exact bucket key of the first pass: normalised name, size rounded to
an 8-px grid, resolved source, and originating page, joined by
underscores. -/
def groupKeyOf (icon : IconInfo) : String :=
  let normalizedName : String :=
    match parseLibrary icon.name.data with
    | some (lib, iconName) =>
      String.mk (lowerList lib) ++ "/" ++ String.mk (normalizeName iconName)
    | none => String.mk (normalizeName icon.name.data)
  let sizeGroup :=
    toString (round (icon.width / 8) * 8) ++ "x" ++ toString (round (icon.height / 8) * 8)
  normalizedName ++ "_" ++ sizeGroup ++ "_" ++ icon.source ++ "_" ++ icon.page

/-- An insertion-ordered bucket map, as a JavaScript `Map` iterated with
`entries()`. -/
abbrev BucketMap := List (String × List IconInfo)

/-- `if (!m.has(k)) m.set(k, []); m.get(k)!.push(v)`. -/
def bucketInsert (k : String) (v : IconInfo) : BucketMap → BucketMap
  | [] => [(k, [v])]
  | (k1, g) :: rest =>
    if k1 = k then (k1, g ++ [v]) :: rest else (k1, g) :: bucketInsert k v rest

/-- First pass: bucket every validated icon by its exact key. -/
def buildIconGroups (icons : List IconInfo) : BucketMap :=
  icons.foldl (fun m icon => bucketInsert (groupKeyOf icon) icon m) []

/-- `m.get(k)!.push(v)` on an existing key. -/
def mapPush (k : String) (v : IconInfo) : BucketMap → BucketMap
  | [] => []
  | (k1, g) :: rest =>
    if k1 = k then (k1, g ++ [v]) :: rest else (k1, g) :: mapPush k v rest

/-- `m.set(k, g)`: replace in place when the key exists, append otherwise. -/
def mapSet (k : String) (g : List IconInfo) : BucketMap → BucketMap
  | [] => [(k, g)]
  | (k1, g1) :: rest =>
    if k1 = k then (k1, g) :: rest else (k1, g1) :: mapSet k g rest

/-- Seed of the second pass: keep every bucket with at least two members (in
iteration order) and mark its members as processed. -/
def multiPass (buckets : BucketMap) : BucketMap × List String :=
  buckets.foldl
    (fun st b =>
      if 1 < b.2.length then (st.1 ++ [b], st.2 ++ b.2.map (fun i => i.id))
      else st)
    ([], [])

/-- One step of the best-match scan of a singleton against the current
enhanced groups: groups of at most one member are skipped, only groups on the
same page are considered, and the candidate must score strictly above 70 and
strictly above the best match so far. -/
def bestMatchStep (sim : IconInfo → IconInfo → ℚ) (single : IconInfo)
    (best : Option (String × ℚ)) (b : String × List IconInfo) :
    Option (String × ℚ) :=
  if b.2.length ≤ 1 then best
  else
    match b.2 with
    | [] => best
    | rep :: _ =>
      if single.page ≠ rep.page then best
      else
        let s := sim single rep
        match best with
        | none => if 70 < s then some (b.1, s) else none
        | some (k0, s0) => if 70 < s ∧ s0 < s then some (b.1, s) else some (k0, s0)

/-- The best-match scan over all current enhanced groups. -/
def bestMatchOf (sim : IconInfo → IconInfo → ℚ) (single : IconInfo)
    (groups : BucketMap) : Option (String × ℚ) :=
  groups.foldl (bestMatchStep sim single) none

/-- Second pass, one bucket: singleton buckets either join their best-scoring
group or become their own `single_`-keyed group; everything else is left
alone. -/
def singlePassStep (sim : IconInfo → IconInfo → ℚ)
    (st : BucketMap × List String) (b : String × List IconInfo) :
    BucketMap × List String :=
  match b with
  | (k, [single]) =>
    if single.id ∈ st.2 then st
    else
      match bestMatchOf sim single st.1 with
      | some (k0, _) => (mapPush k0 single st.1, st.2 ++ [single.id])
      | none => (mapSet ("single_" ++ k) [single] st.1, st.2 ++ [single.id])
  | _ => st

/-- Second pass over all buckets. -/
def singlePass (sim : IconInfo → IconInfo → ℚ) (buckets : BucketMap)
    (st : BucketMap × List String) : BucketMap × List String :=
  buckets.foldl (singlePassStep sim) st

/-- Final reconciliation: any icon whose id was never processed is placed in
its own `fallback_`-keyed group. -/
def fallbackStep (st : BucketMap × List String) (icon : IconInfo) :
    BucketMap × List String :=
  if icon.id ∈ st.2 then st
  else (mapSet ("fallback_" ++ icon.id) [icon] st.1, st.2 ++ [icon.id])

/-- The complete grouping phase of `consolidateSimilarIcons` on the validated
icons: exact-key bucketing, similarity refinement of singletons, and the
final reconciliation. -/
def consolidateGroups (sim : IconInfo → IconInfo → ℚ)
    (validIcons : List IconInfo) : BucketMap :=
  let buckets := buildIconGroups validIcons
  let st1 := multiPass buckets
  let st2 := singlePass sim buckets st1
  (validIcons.foldl fallbackStep st2).1

/-! ## Consolidation transaction (`createComponentFromIconGroup`) -/

/-- The representative tie-break score:
`name.length + (name.includes('icon') ? 10 : 0)` (case-sensitive). -/
def repScore (icon : IconInfo) : Nat :=
  icon.name.length + (if containsStr icon.name ("icon") then 10 else 0)

/-- `group.reduce(...)`: fold from the first member, replacing the best only
on a strictly higher score, so the earliest maximiser is kept. -/
def bestIconOf (first : IconInfo) (rest : List IconInfo) : IconInfo :=
  rest.foldl
    (fun best current => if repScore best < repScore current then current else best)
    first

/-- Result record of a cluster transaction. -/
structure GroupResult where
  success : Bool
  iconsReplaced : Nat
  pagesAffected : List String
  deriving DecidableEq

/-- Oracle for the tree mutations performed by a cluster transaction:
`resolve` is `getNodeByIdAsync` (`none` covers both `null` and a lookup
throw), `cloneOk` whether cloning/wrapping the representative as a component
succeeds, `replaceOk` whether `replaceWithInstance` on a member succeeds, and
`removeOk` whether `node.remove()` succeeds. -/
structure MutEnv where
  resolve : String → Option NodeType
  cloneOk : Bool
  replaceOk : String → Bool
  removeOk : String → Bool

/-- `pagesAffected.add(page)` (a JavaScript `Set`). -/
def addPage (pages : List String) (p : String) : List String :=
  if p ∈ pages then pages else pages ++ [p]

/-- Per-member body of the replacement loop.  The representative's own source
node is deleted (counted only when it resolves and is neither a page nor a
component and the deletion does not throw); any other member counts exactly
when `replaceWithInstance` succeeds — a failed replacement only triggers a
best-effort fallback deletion, which never contributes to the count, and the
loop always continues. -/
def processMember (env : MutEnv) (bestId : String) (st : Nat × List String)
    (m : IconInfo) : Nat × List String :=
  if m.id = bestId then
    match env.resolve m.id with
    | some t =>
      if t ≠ NodeType.PAGE ∧ t ≠ NodeType.COMPONENT ∧ env.removeOk m.id = true then
        (st.1 + 1, addPage st.2 m.page)
      else st
    | none => st
  else
    if env.replaceOk m.id then (st.1 + 1, addPage st.2 m.page)
    else st

/-- Whether the loop body counts member `m` as successfully replaced or
removed (used to state that the count is a pointwise sum over members). -/
def memberCounted (env : MutEnv) (bestId : String) (m : IconInfo) : Bool :=
  if m.id = bestId then
    match env.resolve m.id with
    | some t =>
      decide (t ≠ NodeType.PAGE ∧ t ≠ NodeType.COMPONENT) && env.removeOk m.id
    | none => false
  else env.replaceOk m.id

/-- `createComponentFromIconGroup` on a non-empty group `first :: rest`:
pick the representative, materialise the canonical component (failure of the
lookup, a page-typed original, or a clone failure abort with a failed result),
then rewrite every member, reporting success exactly when at least one member
was replaced or removed. -/
def createComponentFromIconGroup (env : MutEnv) (first : IconInfo)
    (rest : List IconInfo) : GroupResult :=
  let bestIcon := bestIconOf first rest
  match env.resolve bestIcon.id with
  | none => { success := false, iconsReplaced := 0, pagesAffected := [] }
  | some t =>
    if t = NodeType.PAGE then
      { success := false, iconsReplaced := 0, pagesAffected := [] }
    else if env.cloneOk = false then
      { success := false, iconsReplaced := 0, pagesAffected := [] }
    else
      let st := (first :: rest).foldl (processMember env bestIcon.id) (0, [])
      { success := decide (0 < st.1), iconsReplaced := st.1, pagesAffected := st.2 }

/-! ## Sources and frame context -/

/-- The display-name map for known icon libraries. -/
def libraryMap : List (String × String) :=
  [("lucide", "Lucide Library"), ("heroicons", "Heroicons Library"),
   ("feather", "Feather Icons"), ("material", "Material Icons"),
   ("fontawesome", "Font Awesome"), ("bootstrap", "Bootstrap Icons"),
   ("tabler", "Tabler Icons"), ("phosphor", "Phosphor Icons"),
   ("remix", "Remix Icon"), ("ant", "Ant Design Icons"),
   ("carbon", "Carbon Design System"), ("fluent", "Fluent UI Icons")]

/-- First match in an association list. -/
def lookupAssoc (m : List (String × String)) (k : String) : Option String :=
  (m.find? (fun e => e.1 = k)).map Prod.snd

/-- ASCII upper-casing of a character (`charAt(0).toUpperCase()`). -/
def upChar (c : Char) : Char :=
  if c.isLower then Char.ofNat (c.toNat - 32) else c

/-- Capitalise the first character. -/
def capFirst : List Char → List Char
  | [] => []
  | c :: cs => upChar c :: cs

/-- `parseIconSource`: map a library prefix to a display name, fall back to
`"Icon Library"` for names containing `icon`, then to the file name. -/
def parseIconSource (rootName : String) (iconName : String) : String :=
  match parseLibrary iconName.data with
  | some (lib, _) =>
    let libraryName := String.mk (lowerList lib)
    match lookupAssoc libraryMap libraryName with
    | some display => display
    | none => String.mk (capFirst (lowerList lib)) ++ " Library"
  | none =>
    if containsList (lowerList iconName.data) ("icon".data) then "Icon Library"
    else if rootName = "" then "Unknown" else rootName

/-- The UI-context patterns of `determineFrameContext`. -/
def contextPatterns : List (String × String) :=
  [("button", "Button"), ("card", "Card"), ("header", "Header"),
   ("nav", "Navigation"), ("toolbar", "Toolbar"), ("modal", "Modal"),
   ("dialog", "Dialog"), ("sidebar", "Sidebar"), ("menu", "Menu"),
   ("tab", "Tab"), ("badge", "Badge"), ("chip", "Chip"),
   ("input", "Input"), ("form", "Form"), ("dropdown", "Dropdown"),
   ("accordion", "Accordion")]

/-- `determineFrameContext`: the semantic label of the immediate parent frame,
if any. -/
def determineFrameContext (node : FigNode) : Option String :=
  match node.ancestors.head? with
  | none => none
  | some p =>
    if p.type ≠ NodeType.FRAME then none
    else
      let parentName := lowerList p.name.data
      match contextPatterns.find? (fun pc => containsList parentName pc.1.data) with
      | some pc => some pc.2
      | none => some p.name

/-! ## Consistency analyzer (`analyzeIconConsistency`) -/

/-- `` `${icon.width}x${icon.height}` ``. -/
def sizeKeyOf (icon : IconInfo) : String :=
  toString icon.width ++ "x" ++ toString icon.height

/-- At this position, does `/\s*copy\s*\d*/i` match?  If so return the
remainder after the match. -/
def matchCopyAt (s : List Char) : Option (List Char) :=
  let t := s.dropWhile Char.isWhitespace
  if 4 ≤ t.length ∧ lowerList (t.take 4) = "copy".data then
    some (((t.drop 4).dropWhile Char.isWhitespace).dropWhile Char.isDigit)
  else none

/-- `.replace(/\s*copy\s*\d*/i, '')`: remove the leftmost match, if any. -/
def stripFirstCopy : List Char → List Char
  | [] => []
  | c :: cs =>
    match matchCopyAt (c :: cs) with
    | some rest => rest
    | none => c :: stripFirstCopy cs

/-- Pattern used to build the `namePatterns` map:
`.toLowerCase().replace(/[-_]/g,' ').replace(/\d+/g,'').trim()`. -/
def namePatternOf (icon : IconInfo) : String :=
  String.mk (trimList
    (((lowerList icon.name.data).map
        (fun c => if c = '-' ∨ c = '_' then ' ' else c)).filter
      (fun c => !c.isDigit)))

/-- Per-icon pattern for duplicate detection: as `namePatternOf`, but with the
`copy N` suffix also removed before trimming. -/
def basePatternOf (icon : IconInfo) : String :=
  String.mk (trimList (stripFirstCopy
    (((lowerList icon.name.data).map
        (fun c => if c = '-' ∨ c = '_' then ' ' else c)).filter
      (fun c => !c.isDigit))))

/-- `[a-zA-Z0-9]`. -/
def isAlnum (c : Char) : Bool := c.isAlpha || c.isDigit

/-- Tail of the identifier-shape regex after the leading letter:
`[a-zA-Z0-9]*([_-][a-zA-Z0-9]+)*`. -/
def identTail : List Char → Bool
  | [] => true
  | c :: rest =>
    if isAlnum c then identTail rest
    else if c = '_' ∨ c = '-' then
      match rest with
      | [] => false
      | d :: _ => isAlnum d && identTail rest
    else false

/-- The naming-convention regex `/^[a-zA-Z][a-zA-Z0-9]*([_-][a-zA-Z0-9]+)*$/`. -/
def identShape : List Char → Bool
  | [] => false
  | c :: rest => c.isAlpha && identTail rest

/-- First entry of the bucket map after a stable descending sort by member
count: the earliest bucket with the most members. -/
def argmaxBucket (m : BucketMap) : Option (String × List IconInfo) :=
  m.foldl
    (fun acc e =>
      match acc with
      | none => some e
      | some a => if a.2.length < e.2.length then some e else acc)
    none

/-- `m.get(k)` with `[]` for a missing key. -/
def mapGetD (m : BucketMap) (k : String) : List IconInfo :=
  match m.find? (fun e => e.1 = k) with
  | some e => e.2
  | none => []

/-- The per-icon body of `analyzeIconConsistency`, given the three group maps
computed from the full candidate list. -/
def analyzeOne (icons : List IconInfo) (sizeGroups namePatterns pageGroups : BucketMap)
    (icon : IconInfo) : IconInfo :=
  let detachedCandidate :=
    decide (icon.status = "unresolved") && (icon.type == NodeType.FRAME)
  let cleaned := stripFirstCopy (lowerList icon.name.data)
  let potentialOriginal := icons.find?
    (fun other =>
      decide (other.status = "master") &&
      containsList (lowerList other.name.data) cleaned)
  let isNew := detachedCandidate &&
    (potentialOriginal.isSome || containsList (lowerList icon.name.data) ("copy".data))
  let reasonsA : List String :=
    if isNew then ["Appears to be detached from component"] else []
  let basePattern := basePatternOf icon
  let pageIcons := mapGetD pageGroups icon.page
  let duplicatesOnPage := pageIcons.filter
    (fun other => decide (other.id ≠ icon.id) && decide (basePatternOf other = basePattern))
  let isDuplicate := decide (0 < duplicatesOnPage.length)
  let reasonsB : List String :=
    if isDuplicate then
      ["Duplicate on page (" ++ toString (duplicatesOnPage.length + 1) ++ " total)"]
    else []
  let reasonsC : List String :=
    match argmaxBucket sizeGroups with
    | some mcs =>
      if 1 < mcs.2.length ∧ sizeKeyOf icon ≠ mcs.1 ∧
          ((mapGetD sizeGroups (sizeKeyOf icon)).length : ℚ) < (mcs.2.length : ℚ) / 2 then
        ["Non-standard size (" ++ sizeKeyOf icon ++ ", most common: " ++ mcs.1 ++ ")"]
      else []
    | none => []
  let reasonsD : List String :=
    if identShape icon.name.data then [] else ["Inconsistent naming convention"]
  let similarIcons := mapGetD namePatterns basePattern
  let reasonsE : List String :=
    if 1 < similarIcons.length ∧ isDuplicate = false then
      ["Potential duplicate across pages (" ++ toString similarIcons.length ++
        " similar icons found)"]
    else []
  let reasons := reasonsA ++ reasonsB ++ reasonsC ++ reasonsD ++ reasonsE
  { icon with
    hasInconsistency := decide (reasons.length > 0),
    inconsistencyReasons := reasons,
    isNew := some isNew,
    isDuplicate := some isDuplicate }

/-- `analyzeIconConsistency`: group by size, name pattern and page, then
annotate every icon; the input list's length, order and identity fields are
untouched, and no tree access happens at all. -/
def analyzeIconConsistency (icons : List IconInfo) : List IconInfo :=
  let sizeGroups := icons.foldl (fun m i => bucketInsert (sizeKeyOf i) i m) []
  let namePatterns := icons.foldl (fun m i => bucketInsert (namePatternOf i) i m) []
  let pageGroups := icons.foldl (fun m i => bucketInsert i.page i m) []
  icons.map (analyzeOne icons sizeGroups namePatterns pageGroups)

/-! ## Instance counts and user markings -/

/-- `map.set(k, (map.get(k) || 0) + 1)`. -/
def bumpCount (k : String) : List (String × Nat) → List (String × Nat)
  | [] => [(k, 1)]
  | (k1, n) :: rest =>
    if k1 = k then (k1, n + 1) :: rest else (k1, n) :: bumpCount k rest

/-- Count lookup with default 0. -/
def lookupCount (m : List (String × Nat)) (k : String) : Nat :=
  match m.find? (fun e => e.1 = k) with
  | some e => e.2
  | none => 0

/-- `calculateInstanceCounts`: count instances per master id and record the
count on the masters. -/
def calculateInstanceCounts (icons : List IconInfo) : List IconInfo :=
  let counts := icons.foldl
    (fun m i =>
      match i.masterComponentId with
      | some mid => bumpCount mid m
      | none => m)
    []
  icons.map
    (fun i =>
      if i.status = "master" then { i with instanceCount := some (lookupCount counts i.id) }
      else i)

/-- `applyMarkingsToIcons` over an injected markings map. -/
def applyMarkingsToIcons (markings : String → Option (Bool × Bool))
    (icons : List IconInfo) : List IconInfo :=
  icons.map
    (fun i =>
      { i with
        isIgnored := some (((markings i.id).map Prod.fst).getD false),
        isMarkedForSwap := some (((markings i.id).map Prod.snd).getD false) })

/-! ## Discovery pipeline (`scanForIcons`) -/

/-- A variant child of a component set, as inspected by phase 1. -/
structure VariantNode where
  id : String
  name : String
  type : NodeType
  bounds : Option (ℚ × ℚ)
  deriving DecidableEq

/-- The resolved main component of an instance
(`instance.getMainComponentAsync()`), with the data phase 2 reads from it. -/
structure MainComp where
  id : String
  name : String
  parentType : Option NodeType := none
  parentName : String := ""
  deriving DecidableEq

/-- An instance node together with its resolved main component (`none` when
resolution returns null or throws). -/
structure InstNode where
  node : FigNode
  main : Option MainComp := none
  deriving DecidableEq

/-- One page, with the three `findAll` result lists the scan walks. -/
structure PageData where
  name : String
  components : List (FigNode × List VariantNode) := []
  instances : List InstNode := []
  unresolvedNodes : List FigNode := []

/-- The scan's environment: the document pages, the file name, the current
page, and the injected effects (preview export, persisted markings, ignored
set, page loading). -/
structure ScanEnv where
  pages : List PageData
  rootName : String := ""
  currentPageName : String := ""
  previewOf : String → Option String := fun _ => none
  markings : String → Option (Bool × Bool) := fun _ => none
  ignoredIds : List String := []
  loadOk : Bool := true

/-- Cap on the total number of candidates produced. -/
def MAX_ICONS : Nat := 2000

/-- Cap on pages scanned. -/
def MAX_PAGES : Nat := 100

/-- Cap on unresolved candidates processed per page. -/
def MAX_UNRESOLVED_PER_PAGE : Nat := 200

/-- The archive-page filter applied before phase 1. -/
def isArchivePage (pageName : String) : Bool :=
  let p := lowerList pageName.data
  containsList p ("archive".data) || containsList p ("🗄️".data) ||
  containsList p ("archived".data) || containsList p ("old".data) ||
  containsList p ("backup".data)

/-- `Math.floor` on a rational, back into the rationals. -/
def floorQ (q : ℚ) : ℚ := ((Int.floor q : ℤ) : ℚ)

/-- `masterComponentIds.add(id)` (a JavaScript `Set`). -/
def addId (ids : List String) (id : String) : List String :=
  if id ∈ ids then ids else ids ++ [id]

/-- The candidate record pushed for an accepted master component. -/
def masterIconInfo (rootName : String) (previewOf : String → Option String)
    (pageName : String) (c : FigNode) (vars : List VariantNode) (w h : ℚ) :
    IconInfo :=
  { id := c.id,
    name := c.name,
    type := c.type,
    width := floorQ w,
    height := floorQ h,
    page := pageName,
    frameContext := determineFrameContext c,
    source := parseIconSource rootName c.name,
    preview := previewOf c.id,
    status := "master",
    instanceCount := some 0,
    hasInconsistency := false,
    inconsistencyReasons := [],
    componentSet := if c.type = NodeType.COMPONENT_SET then some c.name else none,
    variants := if c.type = NodeType.COMPONENT_SET then some vars.length else none }

/-- A variant passes the icon-size gating of phase 1. -/
def variantIconSized (w h : ℚ) : Prop :=
  8 ≤ max w h ∧ max w h ≤ 200 ∧ 0.5 ≤ w / h ∧ w / h ≤ 2.0

instance (w h : ℚ) : Decidable (variantIconSized w h) := by
  unfold variantIconSized; infer_instance

/-- Walk a component set's children: collect the ids of the icon-sized
component variants (in order) and the preview of the first variant for which
preview generation succeeds. -/
def collectVariants (previewOf : String → Option String) :
    List VariantNode → List String × Option String
  | [] => ([], none)
  | v :: rest =>
    let tail := collectVariants previewOf rest
    if v.type = NodeType.COMPONENT ∧ v.name ≠ "" then
      match v.bounds with
      | some (vw, vh) =>
        if variantIconSized vw vh then
          (v.id :: tail.1,
            match previewOf v.id with
            | some pv => some pv
            | none => tail.2)
        else tail
      | none => tail
    else tail

/-- `allIcons[allIcons.findIndex(icon => icon.id === cid)] := …` update of the
component-set entry with the first variant preview and the variant count. -/
def updateFirstIcon (cid : String) (pv : Option String) (n : Nat) :
    List IconInfo → List IconInfo
  | [] => []
  | i :: rest =>
    if i.id = cid then { i with preview := pv, variants := some n } :: rest
    else i :: updateFirstIcon cid pv n rest

/-- Phase 1, inner loop over one page's components (with the `break` once
`MAX_ICONS` is reached). -/
def phase1Comps (rootName : String) (previewOf : String → Option String)
    (pageName : String) :
    List (FigNode × List VariantNode) → List IconInfo → List String →
    List IconInfo × List String
  | [], allIcons, mids => (allIcons, mids)
  | (c, vars) :: rest, allIcons, mids =>
    if isLikelyIcon c = false then
      phase1Comps rootName previewOf pageName rest allIcons mids
    else
      match c.bounds with
      | none => phase1Comps rootName previewOf pageName rest allIcons mids
      | some (w, h) =>
        if c.name = "" then phase1Comps rootName previewOf pageName rest allIcons mids
        else
          let mids1 := addId mids c.id
          let allIcons1 :=
            allIcons ++ [masterIconInfo rootName previewOf pageName c vars w h]
          let stepped :=
            if c.type = NodeType.COMPONENT_SET ∧ 0 < vars.length then
              let collected := collectVariants previewOf vars
              let mids2 := collected.1.foldl addId mids1
              if 0 < collected.1.length then
                (updateFirstIcon c.id collected.2 collected.1.length allIcons1, mids2)
              else (allIcons1, mids2)
            else (allIcons1, mids1)
          if MAX_ICONS ≤ stepped.1.length then stepped
          else phase1Comps rootName previewOf pageName rest stepped.1 stepped.2

/-- Phase 1, outer loop over the pages. -/
def phase1Pages (rootName : String) (previewOf : String → Option String) :
    List PageData → List IconInfo × List String → List IconInfo × List String
  | [], st => st
  | p :: rest, st =>
    let st1 := phase1Comps rootName previewOf p.name p.components st.1 st.2
    if MAX_ICONS ≤ st1.1.length then st1
    else phase1Pages rootName previewOf rest st1

/-- The candidate record pushed for an accepted instance. -/
def instanceIconInfo (rootName : String) (previewOf : String → Option String)
    (pageName : String) (node : FigNode) (mc : MainComp) (w h : ℚ) : IconInfo :=
  { id := node.id,
    name := node.name,
    type := node.type,
    width := floorQ w,
    height := floorQ h,
    page := pageName,
    frameContext := determineFrameContext node,
    source := parseIconSource rootName node.name,
    preview := previewOf node.id,
    status := "instance",
    masterComponentId := some mc.id,
    hasInconsistency := false,
    inconsistencyReasons := [],
    componentSet :=
      if mc.parentType = some NodeType.COMPONENT_SET then some mc.parentName
      else none }

/-- Phase 2, inner loop over one page's instances: an instance is accepted
only when its resolved main component's id is already in the master set. -/
def phase2Insts (rootName : String) (previewOf : String → Option String)
    (pageName : String) (mids : List String) :
    List InstNode → List IconInfo → List IconInfo
  | [], acc => acc
  | inst :: rest, acc =>
    if inst.node.name = "" then phase2Insts rootName previewOf pageName mids rest acc
    else
      match inst.main with
      | none => phase2Insts rootName previewOf pageName mids rest acc
      | some mc =>
        if mc.id ∈ mids then
          if mc.name = "" then phase2Insts rootName previewOf pageName mids rest acc
          else
            match inst.node.bounds with
            | none => phase2Insts rootName previewOf pageName mids rest acc
            | some (w, h) =>
              let acc1 :=
                acc ++ [instanceIconInfo rootName previewOf pageName inst.node mc w h]
              if MAX_ICONS ≤ acc1.length then acc1
              else phase2Insts rootName previewOf pageName mids rest acc1
        else phase2Insts rootName previewOf pageName mids rest acc

/-- Phase 2, outer loop over the pages. -/
def phase2Pages (rootName : String) (previewOf : String → Option String)
    (mids : List String) : List PageData → List IconInfo → List IconInfo
  | [], acc => acc
  | p :: rest, acc =>
    let acc1 := phase2Insts rootName previewOf p.name mids p.instances acc
    if MAX_ICONS ≤ acc1.length then acc1
    else phase2Pages rootName previewOf mids rest acc1

/-- Phase 3's ancestor filter: keep a node only if its chain up to the page
passes through no recorded master and no instance. -/
def outsideMasterSystem (mids : List String) : List Ancestor → Bool
  | [] => true
  | a :: rest =>
    if a.type = NodeType.PAGE then true
    else if a.id ∈ mids then false
    else if a.type = NodeType.INSTANCE then false
    else outsideMasterSystem mids rest

/-- The candidate record pushed for an accepted unresolved node. -/
def unresolvedIconInfo (rootName : String) (previewOf : String → Option String)
    (pageName : String) (node : FigNode) (w h : ℚ) : IconInfo :=
  { id := node.id,
    name := node.name,
    type := node.type,
    width := floorQ w,
    height := floorQ h,
    page := pageName,
    frameContext := determineFrameContext node,
    source := parseIconSource rootName node.name,
    preview := previewOf node.id,
    status := "unresolved",
    hasInconsistency := false,
    inconsistencyReasons := [] }

/-- Phase 3, inner loop over the filtered candidate nodes of one page. -/
def phase3Nodes (rootName : String) (previewOf : String → Option String)
    (pageName : String) : List FigNode → List IconInfo → List IconInfo
  | [], acc => acc
  | n :: rest, acc =>
    if n.name = "" then phase3Nodes rootName previewOf pageName rest acc
    else if isLikelyIcon n = false then phase3Nodes rootName previewOf pageName rest acc
    else
      match n.bounds with
      | none => phase3Nodes rootName previewOf pageName rest acc
      | some (w, h) =>
        let acc1 := acc ++ [unresolvedIconInfo rootName previewOf pageName n w h]
        if MAX_ICONS ≤ acc1.length then acc1
        else phase3Nodes rootName previewOf pageName rest acc1

/-- Phase 3, outer loop over the pages, with the per-page truncations. -/
def phase3Pages (rootName : String) (previewOf : String → Option String)
    (mids : List String) : List PageData → List IconInfo → List IconInfo
  | [], acc => acc
  | p :: rest, acc =>
    if MAX_ICONS ≤ acc.length then acc
    else
      let pot := p.unresolvedNodes.take (MAX_UNRESOLVED_PER_PAGE * 3)
      let filtered := pot.filter (fun n => outsideMasterSystem mids n.ancestors)
      let finalNodes := filtered.take MAX_UNRESOLVED_PER_PAGE
      let acc1 := phase3Nodes rootName previewOf p.name finalNodes acc
      if MAX_ICONS ≤ acc1.length then acc1
      else phase3Pages rootName previewOf mids rest acc1

/-- The scan's result record. -/
structure ScanResult where
  totalIcons : Nat
  inconsistencies : Nat
  discoveredIcons : List IconInfo
  ignoredCount : Nat
  currentPageName : String

/-- The pages actually scanned: first `MAX_PAGES` pages, minus archives. -/
def scanPages (env : ScanEnv) : List PageData :=
  (if MAX_PAGES < env.pages.length then env.pages.take MAX_PAGES
   else env.pages).filter (fun p => !isArchivePage p.name)

/-- Phase 1's output: the master candidates and the recorded master-id set
(component ids plus icon-sized component-set variant ids). -/
def phase1Result (env : ScanEnv) : List IconInfo × List String :=
  phase1Pages env.rootName env.previewOf (scanPages env) ([], [])

/-- The master-id set recorded during phase 1. -/
def masterIdsOf (env : ScanEnv) : List String := (phase1Result env).2

/-- `scanForIcons`: the three discovery phases followed by instance counting,
consistency analysis, user markings, and the active/ignored split. -/
def scanForIcons (env : ScanEnv) : ScanResult :=
  if env.loadOk = false then
    { totalIcons := 0, inconsistencies := 0, discoveredIcons := [],
      ignoredCount := 0, currentPageName := "" }
  else
    let pagesToScan := scanPages env
    let p1 := phase1Result env
    let afterP2 := phase2Pages env.rootName env.previewOf p1.2 pagesToScan p1.1
    let afterP3 := phase3Pages env.rootName env.previewOf p1.2 pagesToScan afterP2
    let withCounts := calculateInstanceCounts afterP3
    let withCons := analyzeIconConsistency withCounts
    let withMarks := applyMarkingsToIcons env.markings withCons
    let active := withMarks.filter (fun i => decide (i.id ∉ env.ignoredIds))
    let ignoredData :=
      (withMarks.filter (fun i => decide (i.id ∈ env.ignoredIds))).map
        (fun i => { i with isIgnored := some true })
    { totalIcons := active.length,
      inconsistencies := (active.filter (fun i => i.hasInconsistency)).length,
      discoveredIcons := active ++ ignoredData,
      ignoredCount := ignoredData.length,
      currentPageName := env.currentPageName }

/-! ## Concrete nodes used by the witnesses -/

/-- A 24×24 frame named `Icon/arrow` with a single vector child. -/
def frameArrow24 : FigNode :=
  { id := "w:1", name := "Icon/arrow", type := NodeType.FRAME,
    bounds := some (24, 24), childTypes := [NodeType.VECTOR] }

/-- The same frame resized to 24×40. -/
def frameArrow2440 : FigNode :=
  { id := "w:2", name := "Icon/arrow", type := NodeType.FRAME,
    bounds := some (24, 40), childTypes := [NodeType.VECTOR] }

/-- A 40×40 instance named `SubmitButton`. -/
def submitButtonNode : FigNode :=
  { id := "w:3", name := "SubmitButton", type := NodeType.INSTANCE,
    bounds := some (40, 40) }

/-- A group node whose bounding box is absent. -/
def noBoundsNode : FigNode :=
  { id := "w:4", name := "mystery", type := NodeType.GROUP, bounds := none }

/-! ## C9 -/

/-- C9: the classifier is a total function of the node snapshot (it is a Lean
function, so it cannot throw, matching the source's catch-all that swallows
every internal failure), and a node without a bounding box is classified as
not an icon before any node-kind branch is consulted. -/
theorem isLikelyIcon_no_bounds (node : FigNode) (h : node.bounds = none) :
    isLikelyIcon node = false := by
  unfold isLikelyIcon
  rw [h]

/-- Witness for C9 at a concrete bound-less node. -/
theorem isLikelyIcon_no_bounds_witness : isLikelyIcon noBoundsNode = false :=
  isLikelyIcon_no_bounds noBoundsNode rfl

/-! ## C4 -/

/-- C4: for a FRAME with a (positive) bounding box, acceptance is exactly the
conjunction of the four gates: near-square aspect ratio (0.75–1.33), both
dimensions within ±2 px of a single standard icon size, at least one
vector/shape child, and at most 5 children. -/
theorem frame_classifier_iff (node : FigNode) (w h : ℚ)
    (ht : node.type = NodeType.FRAME) (hb : node.bounds = some (w, h))
    (_hw : 0 < w) (_hh : 0 < h) :
    isLikelyIcon node = true ↔
      ((0.75 ≤ w / h ∧ w / h ≤ 1.33) ∧
        (∃ s ∈ standardIconSizes, |w - s| ≤ 2 ∧ |h - s| ≤ 2) ∧
        node.childTypes.any isShapeType = true ∧
        node.childTypes.length ≤ 5) := by
  unfold isLikelyIcon
  rw [hb, ht]
  simp only [show ((NodeType.FRAME == NodeType.COMPONENT) ||
      (NodeType.FRAME == NodeType.COMPONENT_SET)) = false from rfl,
    show (NodeType.FRAME == NodeType.INSTANCE) = false from rfl,
    show (NodeType.FRAME == NodeType.FRAME) = true from rfl,
    Bool.false_eq_true, if_false, if_true]
  constructor
  · intro hacc
    split_ifs at hacc with h1 h2 h3 h4
    push_neg at h1
    refine ⟨⟨h1.1, h1.2⟩, ?_, h3, by omega⟩
    obtain ⟨s, hs, hps⟩ := List.any_eq_true.mp h2
    exact ⟨s, hs, of_decide_eq_true hps⟩
  · rintro ⟨⟨ha1, ha2⟩, ⟨s, hs, hps⟩, hvec, hlen⟩
    have h1 : ¬(w / h < 0.75 ∨ 1.33 < w / h) := by
      push_neg
      exact ⟨ha1, ha2⟩
    have h2 : ¬¬(standardIconSizes.any
        (fun s => decide (|w - s| ≤ 2 ∧ |h - s| ≤ 2)) = true) := by
      rw [not_not, List.any_eq_true]
      exact ⟨s, hs, decide_eq_true hps⟩
    have h3 : ¬¬(node.childTypes.any isShapeType = true) := not_not_intro hvec
    have h4 : ¬(5 < node.childTypes.length) := by omega
    rw [if_neg h1, if_neg h2, if_neg h3, if_neg h4]

/-- Witness for C4: the 24×24 frame with one Vector child is accepted, the
24×40 variant is rejected. -/
theorem frame_classifier_iff_witness :
    isLikelyIcon frameArrow24 = true ∧ isLikelyIcon frameArrow2440 = false := by
  constructor
  · refine (frame_classifier_iff frameArrow24 24 24 rfl rfl (by norm_num)
      (by norm_num)).mpr ⟨⟨by norm_num, by norm_num⟩, ⟨24, ?_, by norm_num⟩, ?_, ?_⟩
    · show (24 : ℚ) ∈ standardIconSizes
      norm_num [standardIconSizes]
    · decide
    · decide
  · have hiff := frame_classifier_iff frameArrow2440 24 40 rfl rfl (by norm_num)
      (by norm_num)
    refine Bool.eq_false_iff.mpr (fun hacc => ?_)
    have hc := (hiff.mp hacc).1.1
    norm_num at hc

/-! ## C6 -/

/-- C6: an INSTANCE whose lower-cased name contains a UI-component vocabulary
term is rejected before any scoring, whatever its bounds, children or other
signals. -/
theorem instance_ui_name_rejected (node : FigNode)
    (ht : node.type = NodeType.INSTANCE)
    (hui : containsAny (lowerList node.name.data) instanceUITerms = true) :
    isLikelyIcon node = false := by
  unfold isLikelyIcon
  cases hbb : node.bounds with
  | none => rfl
  | some wh =>
    obtain ⟨w, h⟩ := wh
    rw [ht]
    simp only [show ((NodeType.INSTANCE == NodeType.COMPONENT) ||
        (NodeType.INSTANCE == NodeType.COMPONENT_SET)) = false from rfl,
      show (NodeType.INSTANCE == NodeType.INSTANCE) = true from rfl,
      Bool.false_eq_true, if_false, if_true]
    rw [if_pos hui]

/-- Witness for C6: the 40×40 `SubmitButton` instance is rejected. -/
theorem instance_ui_name_rejected_witness : isLikelyIcon submitButtonNode = false :=
  instance_ui_name_rejected submitButtonNode rfl (by decide)

/-! ## C7 -/

theorem bestIconOf_fold_spec (rest : List IconInfo) :
    ∀ (first : IconInfo),
      bestIconOf first rest ∈ first :: rest ∧
      (∀ y ∈ first :: rest, repScore y ≤ repScore (bestIconOf first rest)) ∧
      (first :: rest).find?
          (fun y => decide (repScore (bestIconOf first rest) ≤ repScore y)) =
        some (bestIconOf first rest) := by
  induction rest with
  | nil =>
    intro first
    refine ⟨List.mem_singleton.mpr rfl, ?_, ?_⟩
    · intro y hy
      rw [List.mem_singleton.mp hy]
      exact le_refl _
    · simp [bestIconOf, List.find?]
  | cons x xs ih =>
    intro first
    by_cases hlt : repScore first < repScore x
    · have hstep : bestIconOf first (x :: xs) = bestIconOf x xs := by
        simp [bestIconOf, List.foldl_cons, if_pos hlt]
      obtain ⟨hmem, hbound, hfind⟩ := ih x
      have hxle : repScore x ≤ repScore (bestIconOf x xs) :=
        hbound x (List.mem_cons_self x xs)
      refine ⟨?_, ?_, ?_⟩
      · rw [hstep]
        exact List.mem_cons_of_mem first hmem
      · intro y hy
        rw [hstep]
        rcases List.mem_cons.mp hy with hy1 | hy2
        · rw [hy1]; exact le_trans (le_of_lt hlt) hxle
        · exact hbound y hy2
      · rw [hstep, List.find?]
        have hne : (decide (repScore (bestIconOf x xs) ≤ repScore first)) = false := by
          rw [decide_eq_false_iff_not]
          intro hle
          exact absurd (lt_of_lt_of_le hlt hxle) (not_lt_of_le hle)
        rw [hne]
        exact hfind
    · have hstep : bestIconOf first (x :: xs) = bestIconOf first xs := by
        simp [bestIconOf, List.foldl_cons, if_neg hlt]
      obtain ⟨hmem, hbound, hfind⟩ := ih first
      push_neg at hlt
      have hfle : repScore first ≤ repScore (bestIconOf first xs) :=
        hbound first (List.mem_cons_self first xs)
      refine ⟨?_, ?_, ?_⟩
      · rw [hstep]
        rcases List.mem_cons.mp hmem with hm1 | hm2
        · rw [hm1]; exact List.mem_cons_self _ _
        · exact List.mem_cons_of_mem _ (List.mem_cons_of_mem _ hm2)
      · intro y hy
        rw [hstep]
        rcases List.mem_cons.mp hy with hy1 | hy2
        · rw [hy1]; exact hfle
        · rcases List.mem_cons.mp hy2 with hy3 | hy4
          · rw [hy3]; exact le_trans hlt hfle
          · exact hbound y (List.mem_cons_of_mem _ hy4)
      · rw [hstep]
        rw [List.find?] at hfind ⊢
        cases hq : decide (repScore (bestIconOf first xs) ≤ repScore first) with
        | true =>
          rw [hq] at hfind
          exact hfind
        | false =>
          rw [hq] at hfind
          have hxne : (decide (repScore (bestIconOf first xs) ≤ repScore x)) = false := by
            rw [decide_eq_false_iff_not]
            intro hle
            have hbf : repScore first < repScore (bestIconOf first xs) := by
              rcases lt_or_ge (repScore first) (repScore (bestIconOf first xs)) with hlt2 | hge
              · exact hlt2
              · exact absurd (decide_eq_true hge) (by rw [hq]; exact Bool.false_ne_true)
            exact absurd (le_trans hle hlt) (not_le_of_lt hbf)
          rw [List.find?, hxne]
          exact hfind

/-- C7: the canonical representative picked by `createComponentFromIconGroup`
is a member of the cluster maximising
`name.length + (10 if the name contains "icon")`, and on ties the earliest
such member is kept (it is the first member attaining the maximal score). -/
theorem bestIconOf_spec (first : IconInfo) (rest : List IconInfo) :
    bestIconOf first rest ∈ first :: rest ∧
    (∀ y ∈ first :: rest, repScore y ≤ repScore (bestIconOf first rest)) ∧
    (first :: rest).find?
        (fun y => decide (repScore (bestIconOf first rest) ≤ repScore y)) =
      some (bestIconOf first rest) :=
  bestIconOf_fold_spec rest first

/-! ## C5 -/

theorem processMember_count (env : MutEnv) (bestId : String) :
    ∀ (l : List IconInfo) (n : Nat) (pages : List String),
      (l.foldl (processMember env bestId) (n, pages)).1 =
        n + l.countP (memberCounted env bestId) := by
  intro l
  induction l with
  | nil => intro n pages; simp
  | cons m rest ih =>
    intro n pages
    rw [List.foldl_cons, List.countP_cons]
    have hstep : (processMember env bestId (n, pages) m).1 =
        n + (if memberCounted env bestId m then 1 else 0) := by
      unfold processMember memberCounted
      by_cases hid : m.id = bestId
      · simp only [if_pos hid]
        cases hr : env.resolve m.id with
        | none => simp
        | some t =>
          by_cases hok : t ≠ NodeType.PAGE ∧ t ≠ NodeType.COMPONENT ∧
              env.removeOk m.id = true
          · simp [hok, hok.1, hok.2.1, hok.2.2]
          · have hbool : (decide (t ≠ NodeType.PAGE ∧ t ≠ NodeType.COMPONENT) &&
                env.removeOk m.id) = false := by
              by_cases h1 : t = NodeType.PAGE
              · simp [h1]
              · by_cases h2 : t = NodeType.COMPONENT
                · simp [h2]
                · have h3 : env.removeOk m.id = false := by
                    cases h4 : env.removeOk m.id
                    · rfl
                    · exact absurd ⟨h1, h2, h4⟩ hok
                  simp [h3]
            show (if t ≠ NodeType.PAGE ∧ t ≠ NodeType.COMPONENT ∧
                env.removeOk m.id = true then (n + 1, addPage pages m.page)
                else (n, pages)).1 =
              n + (if (decide (t ≠ NodeType.PAGE ∧ t ≠ NodeType.COMPONENT) &&
                env.removeOk m.id) = true then 1 else 0)
            rw [if_neg hok, hbool]
            simp
      · simp only [if_neg hid]
        cases hr : env.replaceOk m.id <;> simp [hr]
    cases hp : processMember env bestId (n, pages) m with
    | mk n1 pages1 =>
      have hn1 : n1 = n + (if memberCounted env bestId m then 1 else 0) := by
        rw [← hstep, hp]
      rw [ih n1 pages1, hn1]
      by_cases hmc : memberCounted env bestId m = true <;> (simp [hmc]; try omega)

/-- C5: a cluster transaction reports success exactly when at least one member
was successfully replaced or removed; moreover, once the canonical component
is materialised, the replaced count is a pointwise sum over the members — a
member whose replacement throws contributes nothing (its fallback deletion is
uncounted) and never stops the remaining members from being processed. -/
theorem group_transaction_success_iff (env : MutEnv) (first : IconInfo)
    (rest : List IconInfo) :
    ((createComponentFromIconGroup env first rest).success = true ↔
      0 < (createComponentFromIconGroup env first rest).iconsReplaced) ∧
    (∀ t, env.resolve (bestIconOf first rest).id = some t → t ≠ NodeType.PAGE →
      env.cloneOk = true →
      (createComponentFromIconGroup env first rest).iconsReplaced =
        (first :: rest).countP (memberCounted env (bestIconOf first rest).id)) := by
  constructor
  · cases hr : env.resolve (bestIconOf first rest).id with
    | none => simp [createComponentFromIconGroup, hr]
    | some t =>
      by_cases hp : t = NodeType.PAGE
      · simp [createComponentFromIconGroup, hr, hp]
      · by_cases hc : env.cloneOk = false
        · simp [createComponentFromIconGroup, hr, hp, hc]
        · simp [createComponentFromIconGroup, hr, hp, hc, decide_eq_true_iff]
  · intro t hr hp hc
    have hc2 : ¬(env.cloneOk = false) := by simp [hc]
    simp only [createComponentFromIconGroup, hr, if_neg hp, if_neg hc2]
    have h := processMember_count env (bestIconOf first rest).id (first :: rest) 0 []
    simpa using h

/-- Representative used by the C5 witness (highest tie-break score). -/
def iconRepA : IconInfo :=
  { id := "a1", name := "home icon primary", type := NodeType.FRAME,
    width := 24, height := 24, page := "P", source := "S", status := "unresolved" }

/-- Second member of the C5 witness group; its replacement throws. -/
def iconMemB : IconInfo :=
  { id := "b1", name := "home", type := NodeType.FRAME,
    width := 24, height := 24, page := "P2", source := "S", status := "unresolved" }

/-- C5 witness environment: the representative's source node resolves as a
frame and can be removed; the other member's `replaceWithInstance` throws. -/
def envW5 : MutEnv :=
  { resolve := fun s => if s = "a1" then some NodeType.FRAME else none,
    cloneOk := true,
    replaceOk := fun _ => false,
    removeOk := fun _ => true }

/-- Witness for C5: with one removable representative and one member whose
replacement throws, exactly one member is counted and the transaction still
succeeds. -/
theorem group_transaction_success_iff_witness :
    (createComponentFromIconGroup envW5 iconRepA [iconMemB]).iconsReplaced = 1 ∧
    (createComponentFromIconGroup envW5 iconRepA [iconMemB]).success = true := by
  have h := group_transaction_success_iff envW5 iconRepA [iconMemB]
  have hrep : (createComponentFromIconGroup envW5 iconRepA [iconMemB]).iconsReplaced = 1 := by
    rw [h.2 NodeType.FRAME (by decide) (by decide) rfl]
    decide
  exact ⟨hrep, h.1.mpr (by rw [hrep]; exact Nat.one_pos)⟩

/-! ## C10 -/

theorem forall2_map_rel {α β : Type} (R : β → α → Prop) (f : α → β)
    (l : List α) (h : ∀ x, R (f x) x) : List.Forall₂ R (l.map f) l := by
  induction l with
  | nil => exact List.Forall₂.nil
  | cons x xs ih => exact List.Forall₂.cons (h x) ih

theorem forall2_mem_left {α β : Type} {R : β → α → Prop} :
    ∀ {out : List β} {inp : List α}, List.Forall₂ R out inp →
      ∀ {c : β}, c ∈ out → ∃ i ∈ inp, R c i := by
  intro out inp hf
  induction hf with
  | nil => intro c hc; cases hc
  | cons hr _ ih =>
    intro c hc
    rcases List.mem_cons.mp hc with h1 | h2
    · exact ⟨_, List.mem_cons_self _ _, h1 ▸ hr⟩
    · obtain ⟨i, hi, hri⟩ := ih h2
      exact ⟨i, List.mem_cons_of_mem _ hi, hri⟩

/-- The per-icon annotation step leaves every identifying field unchanged. -/
theorem analyzeOne_preserves (icons : List IconInfo)
    (sizeGroups namePatterns pageGroups : BucketMap) (x : IconInfo) :
    (analyzeOne icons sizeGroups namePatterns pageGroups x).id = x.id ∧
    (analyzeOne icons sizeGroups namePatterns pageGroups x).name = x.name ∧
    (analyzeOne icons sizeGroups namePatterns pageGroups x).type = x.type ∧
    (analyzeOne icons sizeGroups namePatterns pageGroups x).width = x.width ∧
    (analyzeOne icons sizeGroups namePatterns pageGroups x).height = x.height ∧
    (analyzeOne icons sizeGroups namePatterns pageGroups x).page = x.page ∧
    (analyzeOne icons sizeGroups namePatterns pageGroups x).source = x.source ∧
    (analyzeOne icons sizeGroups namePatterns pageGroups x).status = x.status ∧
    (analyzeOne icons sizeGroups namePatterns pageGroups x).masterComponentId =
      x.masterComponentId :=
  ⟨rfl, rfl, rfl, rfl, rfl, rfl, rfl, rfl, rfl⟩

/-- C10: the consistency analyzer returns a list of the same length and order
as its input, every element keeping its identifying fields (`id`, `name`,
`type`, `width`, `height`, `page`, `source`, `status`, `masterComponentId`)
and receiving only the annotation fields; being a pure Lean function of the
candidate list, it touches no document tree at all. -/
theorem analyzeIconConsistency_frame (icons : List IconInfo) :
    (analyzeIconConsistency icons).length = icons.length ∧
    List.Forall₂
      (fun o i =>
        o.id = i.id ∧ o.name = i.name ∧ o.type = i.type ∧ o.width = i.width ∧
        o.height = i.height ∧ o.page = i.page ∧ o.source = i.source ∧
        o.status = i.status ∧ o.masterComponentId = i.masterComponentId)
      (analyzeIconConsistency icons) icons := by
  constructor
  · simp [analyzeIconConsistency]
  · simp only [analyzeIconConsistency]
    exact forall2_map_rel _ _ icons (fun x => analyzeOne_preserves icons _ _ _ x)

/-! ## C3 -/

/-- The shared Levenshtein-ratio piece of the name score is symmetric. -/
theorem levPiece_symm (a b : List Char) :
    (if a = b then (30 : ℚ)
      else if a.length = 0 ∨ b.length = 0 then 0
      else ((Int.floor ((1 - (levenshteinDistance a b : ℚ) /
        ((max a.length b.length : Nat) : ℚ)) * 30) : ℤ) : ℚ)) =
    (if b = a then (30 : ℚ)
      else if b.length = 0 ∨ a.length = 0 then 0
      else ((Int.floor ((1 - (levenshteinDistance b a : ℚ) /
        ((max b.length a.length : Nat) : ℚ)) * 30) : ℤ) : ℚ)) := by
  by_cases hab : a = b
  · rw [if_pos hab, if_pos hab.symm]
  · rw [if_neg hab, if_neg (Ne.symm hab)]
    by_cases hz : a.length = 0 ∨ b.length = 0
    · rw [if_pos hz, if_pos (Or.symm hz)]
    · rw [if_neg hz, if_neg (fun h => hz (Or.symm h))]
      rw [levenshteinDistance_symm, Nat.max_comm]

/-- The name-similarity component is symmetric, across the library-aware and
the fallback branches. -/
theorem calculateNameSimilarity_symm (n1 n2 : String) :
    calculateNameSimilarity n1 n2 = calculateNameSimilarity n2 n1 := by
  unfold calculateNameSimilarity
  rcases h1 : parseLibrary n1.data with _ | ⟨lib1, icon1⟩ <;>
    rcases h2 : parseLibrary n2.data with _ | ⟨lib2, icon2⟩ <;>
    simp only [h1, h2]
  · exact levPiece_symm _ _
  · exact levPiece_symm _ _
  · exact levPiece_symm _ _
  · by_cases hl : lowerList lib1 = lowerList lib2
    · rw [if_pos hl, if_pos hl.symm]
      exact levPiece_symm _ _
    · rw [if_neg hl, if_neg (Ne.symm hl)]

/-- One fills/strokes comparison piece is symmetric. -/
theorem paintPiece_symm (o1 o2 : Option (List String)) :
    (match o1, o2 with
      | some f1, some f2 =>
        if f1.length = f2.length then
          (5 : ℚ) + (match f1, f2 with
            | t1 :: _, t2 :: _ => if t1 = t2 then (5 : ℚ) else 0
            | _, _ => 0)
        else 0
      | _, _ => (0 : ℚ)) =
    (match o2, o1 with
      | some f1, some f2 =>
        if f1.length = f2.length then
          (5 : ℚ) + (match f1, f2 with
            | t1 :: _, t2 :: _ => if t1 = t2 then (5 : ℚ) else 0
            | _, _ => 0)
        else 0
      | _, _ => (0 : ℚ)) := by
  rcases o1 with _ | f1 <;> rcases o2 with _ | f2 <;> simp only []
  by_cases hlen : f1.length = f2.length
  · rw [if_pos hlen, if_pos hlen.symm]
    rcases f1 with _ | ⟨t1, r1⟩ <;> rcases f2 with _ | ⟨t2, r2⟩ <;> simp only []
    by_cases ht : t1 = t2
    · rw [if_pos ht, if_pos ht.symm]
    · rw [if_neg ht, if_neg (Ne.symm ht)]
  · rw [if_neg hlen, if_neg (Ne.symm hlen)]

/-- The visual-attribute component is symmetric. -/
theorem calculateVisualSimilarity_symm (a b : FigNode) :
    calculateVisualSimilarity a b = calculateVisualSimilarity b a := by
  unfold calculateVisualSimilarity
  have htype : (if a.type = b.type then (10 : ℚ) else 0) =
      (if b.type = a.type then (10 : ℚ) else 0) := by
    by_cases h : a.type = b.type
    · rw [if_pos h, if_pos h.symm]
    · rw [if_neg h, if_neg (Ne.symm h)]
  rw [htype, paintPiece_symm a.fills b.fills, paintPiece_symm a.strokes b.strokes]

/-- C3: the pairwise similarity score is symmetric in its two candidates —
the size, aspect-ratio, name (library-aware with Levenshtein distance),
source, and visual components each commute. -/
theorem calculateIconSimilarity_symm (env : String → Option FigNode)
    (icon1 icon2 : IconInfo) :
    calculateIconSimilarity env icon1 icon2 =
      calculateIconSimilarity env icon2 icon1 := by
  unfold calculateIconSimilarity
  have hsize : |icon1.width - icon2.width| = |icon2.width - icon1.width| :=
    abs_sub_comm _ _
  have hheight : |icon1.height - icon2.height| = |icon2.height - icon1.height| :=
    abs_sub_comm _ _
  have hratio : |icon1.width / icon1.height - icon2.width / icon2.height| =
      |icon2.width / icon2.height - icon1.width / icon1.height| :=
    abs_sub_comm _ _
  have hsource : (if icon1.source = icon2.source then (20 : ℚ) else 0) =
      (if icon2.source = icon1.source then (20 : ℚ) else 0) := by
    by_cases h : icon1.source = icon2.source
    · rw [if_pos h, if_pos h.symm]
    · rw [if_neg h, if_neg (Ne.symm h)]
  have hvisual : (match env icon1.id, env icon2.id with
      | some node1, some node2 => calculateVisualSimilarity node1 node2
      | _, _ => (0 : ℚ)) =
      (match env icon2.id, env icon1.id with
      | some node1, some node2 => calculateVisualSimilarity node1 node2
      | _, _ => (0 : ℚ)) := by
    rcases env icon1.id with _ | a <;> rcases env icon2.id with _ | b <;>
      simp only []
    exact calculateVisualSimilarity_symm a b
  rw [hsize, hheight, hratio, calculateNameSimilarity_symm, hsource, hvisual]

/-! ## C1 -/

/-- A singleton can join through one scan step exactly when it could already,
or the inspected group has at least two members, sits on the same page, and
scores strictly above 70. -/
theorem bestMatchStep_isSome (sim : IconInfo → IconInfo → ℚ) (single : IconInfo)
    (best : Option (String × ℚ)) (b : String × List IconInfo) :
    (bestMatchStep sim single best b).isSome = true ↔
      (best.isSome = true ∨
        ∃ rep tail, b.2 = rep :: tail ∧ 1 < b.2.length ∧
          single.page = rep.page ∧ 70 < sim single rep) := by
  unfold bestMatchStep
  by_cases hlen : b.2.length ≤ 1
  · rw [if_pos hlen]
    constructor
    · intro h; exact Or.inl h
    · rintro (h | ⟨rep, tail, hcons, hl, _, _⟩)
      · exact h
      · omega
  · rw [if_neg hlen]
    push_neg at hlen
    cases hb : b.2 with
    | nil => rw [hb] at hlen; simp at hlen
    | cons rep tail =>
      by_cases hpage : single.page ≠ rep.page
      · simp only []
        rw [if_pos hpage]
        constructor
        · intro h; exact Or.inl h
        · rintro (h | ⟨rep2, tail2, hcons, _, hpg, _⟩)
          · exact h
          · cases hcons
            exact absurd hpg.symm (Ne.symm hpage)
      · simp only []
        rw [if_neg hpage]
        push_neg at hpage
        cases best with
        | none =>
          simp only [Option.isSome_none]
          by_cases hs : 70 < sim single rep
          · rw [if_pos hs]
            simp only [Option.isSome_some, true_iff]
            exact Or.inr ⟨rep, tail, rfl, hb ▸ hlen, hpage, hs⟩
          · rw [if_neg hs]
            simp only [Option.isSome_none]
            constructor
            · intro h; cases h
            · rintro (h | ⟨rep2, tail2, hcons, _, _, hsc⟩)
              · cases h
              · cases hcons
                exact absurd hsc hs
        | some pr =>
          obtain ⟨k0, s0⟩ := pr
          constructor
          · intro _; exact Or.inl rfl
          · intro _
            show (if 70 < sim single rep ∧ s0 < sim single rep then
                some (b.1, sim single rep) else some (k0, s0)).isSome = true
            split_ifs <;> rfl

/-- The best-match scan over a bucket list succeeds exactly when some bucket
qualifies. -/
theorem bestMatchOf_fold_isSome (sim : IconInfo → IconInfo → ℚ)
    (single : IconInfo) :
    ∀ (groups : BucketMap) (best : Option (String × ℚ)),
      ((groups.foldl (bestMatchStep sim single) best).isSome = true ↔
        (best.isSome = true ∨
          ∃ b ∈ groups, ∃ rep tail, b.2 = rep :: tail ∧ 1 < b.2.length ∧
            single.page = rep.page ∧ 70 < sim single rep)) := by
  intro groups
  induction groups with
  | nil => intro best; simp
  | cons b bs ih =>
    intro best
    rw [List.foldl_cons]
    rw [ih (bestMatchStep sim single best b)]
    rw [bestMatchStep_isSome]
    constructor
    · rintro ((h | hq) | ⟨b2, hb2, hrest⟩)
      · exact Or.inl h
      · exact Or.inr ⟨b, List.mem_cons_self _ _, hq⟩
      · exact Or.inr ⟨b2, List.mem_cons_of_mem _ hb2, hrest⟩
    · rintro (h | ⟨b2, hb2, hrest⟩)
      · exact Or.inl (Or.inl h)
      · rcases List.mem_cons.mp hb2 with hb3 | hb4
        · exact Or.inl (Or.inr (hb3 ▸ hrest))
        · exact Or.inr ⟨b2, hb4, hrest⟩

/-- C1 (amended): in the second pass, a singleton is eligible to join some
multi-member same-page group exactly when its similarity to that group's
representative is strictly greater than 70 — in particular similarity 69 and
similarity 70 both leave it alone, the threshold being exclusive rather than
inclusive at 70. -/
theorem singleton_merge_strict_threshold (sim : IconInfo → IconInfo → ℚ)
    (single : IconInfo) (groups : BucketMap) :
    (bestMatchOf sim single groups).isSome = true ↔
      ∃ b ∈ groups, ∃ rep tail, b.2 = rep :: tail ∧ 1 < b.2.length ∧
        single.page = rep.page ∧ 70 < sim single rep := by
  unfold bestMatchOf
  rw [bestMatchOf_fold_isSome]
  simp

/-- The similarity oracle of the counterexamples: both node lookups fail, so
the visual component is skipped. -/
def simNoVisual : IconInfo → IconInfo → ℚ :=
  calculateIconSimilarity (fun _ => none)

/-- First member of the 2-element bucket of the C1 counterexample. -/
def cexB1 : IconInfo :=
  { id := "b1x", name := "xy", type := NodeType.FRAME,
    width := 24, height := 24, page := "P", source := "S", status := "unresolved" }

/-- Second member of the same bucket (same name, size, source and page). -/
def cexB2 : IconInfo :=
  { id := "b2x", name := "xy", type := NodeType.FRAME,
    width := 24, height := 24, page := "P", source := "S", status := "unresolved" }

/-- The singleton of the C1 counterexample: same page, size and source as the
bucket, unrelated name, so its similarity to the representative is exactly
30 + 20 + 0 + 20 = 70. -/
def cexC : IconInfo :=
  { id := "c1x", name := "ab", type := NodeType.FRAME,
    width := 24, height := 24, page := "P", source := "S", status := "unresolved" }

theorem simNoVisual_cex_70 : simNoVisual cexC cexB1 = 70 := by
  unfold simNoVisual calculateIconSimilarity calculateNameSimilarity
  norm_num [cexC, cexB1]
  simp only [show parseLibrary ['a','b'] = none from by decide,
    show parseLibrary ['x','y'] = none from by decide]
  norm_num +decide [show normalizeName ['a','b'] = ['a','b'] from by decide,
    show normalizeName ['x','y'] = ['x','y'] from by decide,
    show levenshteinDistance ['a','b'] ['x','y'] = 2 from by decide]

theorem cex_keyB1 : groupKeyOf cexB1 = "xy_24x24_S_P" := by
  unfold groupKeyOf
  norm_num [cexB1, show parseLibrary ("xy").data = none from by decide, round_eq]
  decide

theorem cex_keyB2 : groupKeyOf cexB2 = "xy_24x24_S_P" := by
  unfold groupKeyOf
  norm_num [cexB2, show parseLibrary ("xy").data = none from by decide, round_eq]
  decide

theorem cex_keyC : groupKeyOf cexC = "ab_24x24_S_P" := by
  unfold groupKeyOf
  norm_num [cexC, show parseLibrary ("ab").data = none from by decide, round_eq]
  decide

theorem cex_buckets :
    buildIconGroups [cexB1, cexB2, cexC] =
      [("xy_24x24_S_P", [cexB1, cexB2]), ("ab_24x24_S_P", [cexC])] := by
  unfold buildIconGroups
  simp only [List.foldl_cons, List.foldl_nil]
  rw [cex_keyB1, cex_keyB2, cex_keyC]
  decide

theorem cex_bestMatch :
    bestMatchOf simNoVisual cexC [("xy_24x24_S_P", [cexB1, cexB2])] = none := by
  unfold bestMatchOf bestMatchStep
  simp only [List.foldl_cons, List.foldl_nil]
  rw [if_neg (by decide : ¬([cexB1, cexB2].length ≤ 1)),
    if_neg (by decide : ¬(cexC.page ≠ cexB1.page)), simNoVisual_cex_70]
  norm_num

/-- C1 counterexample: the claim's inclusive-at-70 half fails on the code.
The three candidates put `cexB1, cexB2` into one exact-key bucket and `cexC`
into a singleton on the same page; the singleton's similarity to the
representative is exactly 70, yet the pipeline leaves it in its own
`single_`-keyed group instead of merging it. -/
theorem singleton_merge_70_counterexample :
    simNoVisual cexC cexB1 = 70 ∧
    consolidateGroups simNoVisual [cexB1, cexB2, cexC] =
      [("xy_24x24_S_P", [cexB1, cexB2]), ("single_ab_24x24_S_P", [cexC])] := by
  refine ⟨simNoVisual_cex_70, ?_⟩
  show (List.foldl fallbackStep
      (singlePass simNoVisual (buildIconGroups [cexB1, cexB2, cexC])
        (multiPass (buildIconGroups [cexB1, cexB2, cexC])))
      [cexB1, cexB2, cexC]).1 =
    [("xy_24x24_S_P", [cexB1, cexB2]), ("single_ab_24x24_S_P", [cexC])]
  rw [cex_buckets]
  rw [show multiPass [("xy_24x24_S_P", [cexB1, cexB2]), ("ab_24x24_S_P", [cexC])] =
    ([("xy_24x24_S_P", [cexB1, cexB2])], ["b1x", "b2x"]) from by decide]
  unfold singlePass
  simp only [List.foldl_cons, List.foldl_nil]
  rw [show singlePassStep simNoVisual ([("xy_24x24_S_P", [cexB1, cexB2])], ["b1x", "b2x"])
      ("xy_24x24_S_P", [cexB1, cexB2]) =
    ([("xy_24x24_S_P", [cexB1, cexB2])], ["b1x", "b2x"]) from rfl]
  show (List.foldl fallbackStep
    (singlePassStep simNoVisual ([("xy_24x24_S_P", [cexB1, cexB2])], ["b1x", "b2x"])
      ("ab_24x24_S_P", [cexC])) [cexB1, cexB2, cexC]).1 = _
  rw [show singlePassStep simNoVisual ([("xy_24x24_S_P", [cexB1, cexB2])], ["b1x", "b2x"])
      ("ab_24x24_S_P", [cexC]) =
    ([("xy_24x24_S_P", [cexB1, cexB2]), ("single_ab_24x24_S_P", [cexC])],
      ["b1x", "b2x", "c1x"]) from ?_]
  · decide
  · unfold singlePassStep
    show (if cexC.id ∈ (["b1x", "b2x"] : List String) then
        (([("xy_24x24_S_P", [cexB1, cexB2])] : BucketMap), (["b1x", "b2x"] : List String))
      else
        match bestMatchOf simNoVisual cexC [("xy_24x24_S_P", [cexB1, cexB2])] with
        | some (k0, _) =>
          (mapPush k0 cexC [("xy_24x24_S_P", [cexB1, cexB2])], ["b1x", "b2x"] ++ [cexC.id])
        | none =>
          (mapSet ("single_" ++ "ab_24x24_S_P") [cexC] [("xy_24x24_S_P", [cexB1, cexB2])],
            ["b1x", "b2x"] ++ [cexC.id])) =
      ([("xy_24x24_S_P", [cexB1, cexB2]), ("single_ab_24x24_S_P", [cexC])],
        ["b1x", "b2x", "c1x"])
    rw [if_neg (by decide : ¬(cexC.id ∈ (["b1x", "b2x"] : List String))), cex_bestMatch]
    decide

/-! ## C2: bucket-map infrastructure -/

/-- All members of all groups of a bucket map, in iteration order. -/
def flattenB (m : BucketMap) : List IconInfo := (m.map Prod.snd).flatten

theorem flattenB_cons (b : String × List IconInfo) (m : BucketMap) :
    flattenB (b :: m) = b.2 ++ flattenB m := by
  simp [flattenB]

theorem flattenB_append (m1 m2 : BucketMap) :
    flattenB (m1 ++ m2) = flattenB m1 ++ flattenB m2 := by
  simp [flattenB]

theorem flattenB_mem {x : IconInfo} {m : BucketMap} :
    x ∈ flattenB m ↔ ∃ b ∈ m, x ∈ b.2 := by
  simp only [flattenB, List.mem_flatten, List.mem_map]
  constructor
  · rintro ⟨l, ⟨b, hb, rfl⟩, hx⟩
    exact ⟨b, hb, hx⟩
  · rintro ⟨b, hb, hx⟩
    exact ⟨b.2, ⟨b, hb, rfl⟩, hx⟩

theorem perm_middle_snoc (g R : List IconInfo) (v : IconInfo) :
    ((g ++ [v]) ++ R).Perm ((g ++ R) ++ [v]) := by
  have h1 : (g ++ [v]) ++ R = g ++ ([v] ++ R) := by rw [List.append_assoc]
  have h2 : (([v] ++ R) : List IconInfo).Perm (R ++ [v]) := List.perm_append_comm
  have h3 : (g ++ ([v] ++ R)).Perm (g ++ (R ++ [v])) := List.Perm.append_left g h2
  rw [h1]
  exact h3.trans (by rw [List.append_assoc])

theorem bucketInsert_flatten (k : String) (v : IconInfo) :
    ∀ (m : BucketMap), (flattenB (bucketInsert k v m)).Perm (flattenB m ++ [v]) := by
  intro m
  induction m with
  | nil => simp [bucketInsert, flattenB]
  | cons b rest ih =>
    obtain ⟨k1, g⟩ := b
    unfold bucketInsert
    by_cases hk : k1 = k
    · rw [if_pos hk, flattenB_cons, flattenB_cons]
      exact perm_middle_snoc g (flattenB rest) v
    · rw [if_neg hk, flattenB_cons, flattenB_cons]
      have h1 := List.Perm.append_left g ih
      refine h1.trans ?_
      rw [List.append_assoc]

theorem buildIconGroups_fold_flatten :
    ∀ (l : List IconInfo) (m : BucketMap),
      (flattenB (l.foldl (fun m icon => bucketInsert (groupKeyOf icon) icon m) m)).Perm
        (flattenB m ++ l) := by
  intro l
  induction l with
  | nil => intro m; simp
  | cons x xs ih =>
    intro m
    rw [List.foldl_cons]
    have h1 := ih (bucketInsert (groupKeyOf x) x m)
    have h2 := (bucketInsert_flatten (groupKeyOf x) x m).append_right xs
    refine h1.trans (h2.trans ?_)
    simp

/-- The buckets of the first pass partition the validated icons. -/
theorem buildIconGroups_flatten (icons : List IconInfo) :
    (flattenB (buildIconGroups icons)).Perm icons := by
  have h := buildIconGroups_fold_flatten icons []
  simpa [buildIconGroups, flattenB] using h

theorem bucketInsert_keys (k : String) (v : IconInfo) :
    ∀ (m : BucketMap),
      (bucketInsert k v m).map Prod.fst =
        if k ∈ m.map Prod.fst then m.map Prod.fst else m.map Prod.fst ++ [k] := by
  intro m
  induction m with
  | nil => simp [bucketInsert]
  | cons b rest ih =>
    obtain ⟨k1, g⟩ := b
    unfold bucketInsert
    by_cases hk : k1 = k
    · rw [if_pos hk]
      simp [hk]
    · rw [if_neg hk]
      by_cases hmem : k ∈ rest.map Prod.fst
      · simp only [List.map_cons, ih, if_pos hmem]
        rw [if_pos]
        simp [List.mem_cons, hmem]
      · simp only [List.map_cons, ih, if_neg hmem]
        rw [if_neg]
        · simp
        · simp only [List.mem_cons]
          rintro (h | h)
          · exact hk h.symm
          · exact hmem h

theorem bucketInsert_nonempty (k : String) (v : IconInfo) :
    ∀ (m : BucketMap), (∀ b ∈ m, b.2 ≠ []) →
      ∀ b ∈ bucketInsert k v m, b.2 ≠ [] := by
  intro m
  induction m with
  | nil =>
    intro _ b hb
    simp only [bucketInsert, List.mem_singleton] at hb
    rw [hb]
    simp
  | cons b0 rest ih =>
    intro hm b hb
    obtain ⟨k1, g⟩ := b0
    unfold bucketInsert at hb
    by_cases hk : k1 = k
    · rw [if_pos hk] at hb
      rcases List.mem_cons.mp hb with h1 | h2
      · rw [h1]; simp
      · exact hm b (List.mem_cons_of_mem _ h2)
    · rw [if_neg hk] at hb
      rcases List.mem_cons.mp hb with h1 | h2
      · exact h1 ▸ hm (k1, g) (List.mem_cons_self _ _)
      · exact ih (fun b2 hb2 => hm b2 (List.mem_cons_of_mem _ hb2)) b h2

theorem bucketInsert_keys_nodup (k : String) (v : IconInfo) (m : BucketMap)
    (h : (m.map Prod.fst).Nodup) : ((bucketInsert k v m).map Prod.fst).Nodup := by
  rw [bucketInsert_keys]
  by_cases hmem : k ∈ m.map Prod.fst
  · rw [if_pos hmem]; exact h
  · rw [if_neg hmem]
    rw [List.nodup_append]
    exact ⟨h, List.nodup_singleton k, by simpa [List.disjoint_left] using hmem⟩

theorem buildIconGroups_props (icons : List IconInfo) :
    ((buildIconGroups icons).map Prod.fst).Nodup ∧
      ∀ b ∈ buildIconGroups icons, b.2 ≠ [] := by
  unfold buildIconGroups
  suffices h : ∀ (l : List IconInfo) (m : BucketMap),
      (m.map Prod.fst).Nodup → (∀ b ∈ m, b.2 ≠ []) →
      ((l.foldl (fun m icon => bucketInsert (groupKeyOf icon) icon m) m).map
          Prod.fst).Nodup ∧
      ∀ b ∈ l.foldl (fun m icon => bucketInsert (groupKeyOf icon) icon m) m,
        b.2 ≠ [] by
    exact h icons [] (by simp) (by simp)
  intro l
  induction l with
  | nil => intro m h1 h2; exact ⟨h1, h2⟩
  | cons x xs ih =>
    intro m h1 h2
    rw [List.foldl_cons]
    exact ih _ (bucketInsert_keys_nodup _ _ _ h1) (bucketInsert_nonempty _ _ _ h2)

theorem mapPush_keys (k : String) (v : IconInfo) :
    ∀ (m : BucketMap), (mapPush k v m).map Prod.fst = m.map Prod.fst := by
  intro m
  induction m with
  | nil => rfl
  | cons b rest ih =>
    obtain ⟨k1, g⟩ := b
    unfold mapPush
    by_cases hk : k1 = k
    · rw [if_pos hk]
      simp
    · rw [if_neg hk]
      simp [ih]

theorem mapPush_flatten (k : String) (v : IconInfo) :
    ∀ (m : BucketMap), k ∈ m.map Prod.fst →
      (flattenB (mapPush k v m)).Perm (flattenB m ++ [v]) := by
  intro m
  induction m with
  | nil => intro h; simp at h
  | cons b rest ih =>
    intro hk
    obtain ⟨k1, g⟩ := b
    unfold mapPush
    by_cases hkk : k1 = k
    · rw [if_pos hkk, flattenB_cons, flattenB_cons]
      exact perm_middle_snoc g (flattenB rest) v
    · rw [if_neg hkk, flattenB_cons, flattenB_cons]
      have hk2 : k ∈ rest.map Prod.fst := by
        simp only [List.map_cons, List.mem_cons] at hk
        rcases hk with h1 | h2
        · exact absurd h1.symm hkk
        · exact h2
      have h1 := List.Perm.append_left g (ih hk2)
      refine h1.trans ?_
      rw [List.append_assoc]

theorem mapSet_absent (k : String) (g : List IconInfo) :
    ∀ (m : BucketMap), k ∉ m.map Prod.fst → mapSet k g m = m ++ [(k, g)] := by
  intro m
  induction m with
  | nil => intro _; rfl
  | cons b rest ih =>
    intro hk
    obtain ⟨k1, g1⟩ := b
    unfold mapSet
    have hk1 : ¬(k1 = k) := by
      intro h
      exact hk (by simp [h])
    rw [if_neg hk1]
    have hk2 : k ∉ rest.map Prod.fst := by
      intro h
      exact hk (by simp [h])
    rw [ih hk2]
    simp

theorem flattenB_filter_split (p : String × List IconInfo → Bool) :
    ∀ (l : BucketMap),
      (flattenB l).Perm
        (flattenB (l.filter p) ++ flattenB (l.filter (fun b => !p b))) := by
  intro l
  induction l with
  | nil => simp [flattenB]
  | cons b rest ih =>
    by_cases hp : p b = true
    · rw [flattenB_cons, List.filter_cons_of_pos hp,
        List.filter_cons_of_neg (by simp [hp]), flattenB_cons, List.append_assoc]
      exact List.Perm.append_left b.2 ih
    · rw [flattenB_cons, List.filter_cons_of_neg (by simpa using hp),
        List.filter_cons_of_pos (by simpa using hp), flattenB_cons]
      have h1 := List.Perm.append_left b.2 ih
      refine h1.trans ?_
      have h2 : (b.2 ++ (flattenB (rest.filter p) ++
          flattenB (rest.filter (fun b => !p b)))) =
          (b.2 ++ flattenB (rest.filter p)) ++
            flattenB (rest.filter (fun b => !p b)) := by
        rw [List.append_assoc]
      rw [h2]
      have h3 := (@List.perm_append_comm IconInfo b.2
        (flattenB (rest.filter p))).append_right
        (flattenB (rest.filter (fun b => !p b)))
      refine h3.trans ?_
      rw [List.append_assoc]

theorem multiPass_fold_eq :
    ∀ (l : BucketMap) (acc : BucketMap × List String),
      l.foldl
        (fun st b =>
          if 1 < b.2.length then (st.1 ++ [b], st.2 ++ b.2.map (fun i => i.id))
          else st) acc =
      (acc.1 ++ l.filter (fun b => decide (1 < b.2.length)),
        acc.2 ++ (flattenB (l.filter (fun b => decide (1 < b.2.length)))).map
          (fun i => i.id)) := by
  intro l
  induction l with
  | nil => intro acc; simp [flattenB]
  | cons b rest ih =>
    intro acc
    rw [List.foldl_cons]
    by_cases hb : 1 < b.2.length
    · rw [if_pos hb, ih]
      rw [List.filter_cons_of_pos (by simpa using hb), flattenB_cons]
      simp [List.append_assoc]
    · rw [if_neg hb, ih]
      rw [List.filter_cons_of_neg (by simpa using hb)]

/-- `multiPass` keeps exactly the multi-member buckets and records their
members' ids. -/
theorem multiPass_eq (buckets : BucketMap) :
    multiPass buckets =
      (buckets.filter (fun b => decide (1 < b.2.length)),
        (flattenB (buckets.filter (fun b => decide (1 < b.2.length)))).map
          (fun i => i.id)) := by
  unfold multiPass
  rw [multiPass_fold_eq]
  simp

theorem bestMatchStep_key (sim : IconInfo → IconInfo → ℚ) (single : IconInfo)
    (best : Option (String × ℚ)) (b : String × List IconInfo) :
    bestMatchStep sim single best b = best ∨
      ∃ sc, bestMatchStep sim single best b = some (b.1, sc) := by
  unfold bestMatchStep
  by_cases hlen : b.2.length ≤ 1
  · rw [if_pos hlen]; exact Or.inl rfl
  · rw [if_neg hlen]
    cases hb : b.2 with
    | nil => exact Or.inl (by trivial)
    | cons rep tail =>
      by_cases hpage : single.page ≠ rep.page
      · simp only [if_pos hpage]
        exact Or.inl (by trivial)
      · simp only [if_neg hpage]
        cases best with
        | none =>
          by_cases hs : 70 < sim single rep
          · simp only [if_pos hs]
            exact Or.inr ⟨sim single rep, rfl⟩
          · simp only [if_neg hs]
            exact Or.inl (by trivial)
        | some pr =>
          obtain ⟨k0, s0⟩ := pr
          by_cases hs : 70 < sim single rep ∧ s0 < sim single rep
          · simp only [if_pos hs]
            exact Or.inr ⟨sim single rep, rfl⟩
          · simp only [if_neg hs]
            exact Or.inl (by trivial)

/-- A successful best match names one of the scanned groups. -/
theorem bestMatchOf_some_key (sim : IconInfo → IconInfo → ℚ) (single : IconInfo) :
    ∀ (groups : BucketMap) (best : Option (String × ℚ)) (k0 : String) (sc : ℚ),
      groups.foldl (bestMatchStep sim single) best = some (k0, sc) →
      best = some (k0, sc) ∨ k0 ∈ groups.map Prod.fst := by
  intro groups
  induction groups with
  | nil => intro best k0 sc h; exact Or.inl (by simpa using h)
  | cons b bs ih =>
    intro best k0 sc h
    rw [List.foldl_cons] at h
    rcases ih _ k0 sc h with h1 | h2
    · rcases bestMatchStep_key sim single best b with h3 | ⟨sc2, h3⟩
      · exact Or.inl (h3 ▸ h1)
      · have h4 : some (b.1, sc2) = some (k0, sc) := h3 ▸ h1
        have h5 : b.1 = k0 := by
          injection h4 with h6
          exact congrArg Prod.fst h6
        exact Or.inr (by simp [← h5])
    · exact Or.inr (by simp [h2])

theorem singlePassStep_nil (sim : IconInfo → IconInfo → ℚ)
    (st : BucketMap × List String) (k : String) :
    singlePassStep sim st (k, []) = st := rfl

theorem singlePassStep_multi (sim : IconInfo → IconInfo → ℚ)
    (st : BucketMap × List String) (k : String) (x y : IconInfo)
    (t : List IconInfo) : singlePassStep sim st (k, x :: y :: t) = st := rfl

theorem singlePassStep_singleton (sim : IconInfo → IconInfo → ℚ)
    (st : BucketMap × List String) (k : String) (x : IconInfo) :
    singlePassStep sim st (k, [x]) =
      if x.id ∈ st.2 then st
      else
        match bestMatchOf sim x st.1 with
        | some (k0, _) => (mapPush k0 x st.1, st.2 ++ [x.id])
        | none => (mapSet ("single_" ++ k) [x] st.1, st.2 ++ [x.id]) := rfl

theorem string_append_left_cancel {s a b : String} (h : s ++ a = s ++ b) :
    a = b := by
  have hd : s.data ++ a.data = s.data ++ b.data := by
    have h2 := congrArg String.data h
    simpa [String.data_append] using h2
  have h3 : a.data = b.data := List.append_cancel_left hd
  cases a with
  | mk da =>
    cases b with
    | mk db =>
      have h4 : da = db := by simpa using h3
      rw [h4]

/-- The key invariant of the second pass: every singleton bucket contributes
its member exactly once (joining an existing group or becoming a fresh
`single_` group), the processed-id list advances accordingly, and keys only
grow by fresh `single_` keys. -/
theorem singlePass_spec (sim : IconInfo → IconInfo → ℚ) :
    ∀ (buckets : BucketMap) (eg : BucketMap) (proc : List String),
      ((buckets.map Prod.fst).Nodup) →
      (∀ b ∈ buckets, ∀ x ∈ b.2, b.2.length = 1 → x.id ∉ proc) →
      (((flattenB (buckets.filter (fun b => decide (b.2.length = 1)))).map
        (fun i => i.id)).Nodup) →
      (∀ b ∈ buckets, b.2.length = 1 → ("single_" ++ b.1) ∉ eg.map Prod.fst) →
      (flattenB (singlePass sim buckets (eg, proc)).1).Perm
        (flattenB eg ++
          flattenB (buckets.filter (fun b => decide (b.2.length = 1)))) ∧
      (singlePass sim buckets (eg, proc)).2 =
        proc ++ (flattenB (buckets.filter (fun b => decide (b.2.length = 1)))).map
          (fun i => i.id) ∧
      (∀ k2 ∈ (singlePass sim buckets (eg, proc)).1.map Prod.fst,
        k2 ∈ eg.map Prod.fst ∨
          ∃ b ∈ buckets, b.2.length = 1 ∧ k2 = "single_" ++ b.1) := by
  intro buckets
  induction buckets with
  | nil =>
    intro eg proc _ _ _ _
    refine ⟨by simp [singlePass, flattenB], by simp [singlePass, flattenB], ?_⟩
    intro k2 hk2
    exact Or.inl (by simpa [singlePass] using hk2)
  | cons b bs ih =>
    intro eg proc hknd ha hsn hd
    obtain ⟨k, g⟩ := b
    have hknd2 : (bs.map Prod.fst).Nodup := by
      simpa using hknd.of_cons
    have hstep :
        ∀ (st2 : BucketMap × List String),
          singlePassStep sim (eg, proc) (k, g) = st2 →
          singlePass sim ((k, g) :: bs) (eg, proc) = singlePass sim bs st2 := by
      intro st2 h2
      unfold singlePass
      rw [List.foldl_cons, h2]
    match g with
    | [] =>
      rw [hstep (eg, proc) (singlePassStep_nil sim (eg, proc) k)]
      have hfil : ((k, ([] : List IconInfo)) :: bs).filter
          (fun b => decide (b.2.length = 1)) =
          bs.filter (fun b => decide (b.2.length = 1)) := by
        rw [List.filter_cons_of_neg (by simp)]
      rw [hfil]
      have := ih eg proc hknd2
        (fun b2 hb2 x hx hl => ha b2 (List.mem_cons_of_mem _ hb2) x hx hl)
        (by rw [← hfil]; exact hsn)
        (fun b2 hb2 hl => hd b2 (List.mem_cons_of_mem _ hb2) hl)
      refine ⟨this.1, this.2.1, ?_⟩
      intro k2 hk2
      rcases this.2.2 k2 hk2 with h1 | ⟨b2, hb2, h3⟩
      · exact Or.inl h1
      · exact Or.inr ⟨b2, List.mem_cons_of_mem _ hb2, h3⟩
    | x :: y :: t =>
      rw [hstep (eg, proc) (singlePassStep_multi sim (eg, proc) k x y t)]
      have hfil : ((k, x :: y :: t) :: bs).filter
          (fun b => decide (b.2.length = 1)) =
          bs.filter (fun b => decide (b.2.length = 1)) := by
        rw [List.filter_cons_of_neg (by simp)]
      rw [hfil]
      have := ih eg proc hknd2
        (fun b2 hb2 x2 hx hl => ha b2 (List.mem_cons_of_mem _ hb2) x2 hx hl)
        (by rw [← hfil]; exact hsn)
        (fun b2 hb2 hl => hd b2 (List.mem_cons_of_mem _ hb2) hl)
      refine ⟨this.1, this.2.1, ?_⟩
      intro k2 hk2
      rcases this.2.2 k2 hk2 with h1 | ⟨b2, hb2, h3⟩
      · exact Or.inl h1
      · exact Or.inr ⟨b2, List.mem_cons_of_mem _ hb2, h3⟩
    | [x] =>
      have hfil : ((k, [x]) :: bs).filter (fun b => decide (b.2.length = 1)) =
          (k, [x]) :: bs.filter (fun b => decide (b.2.length = 1)) := by
        rw [List.filter_cons_of_pos (by simp)]
      have hxp : x.id ∉ proc :=
        ha (k, [x]) (List.mem_cons_self _ _) x (List.mem_singleton.mpr rfl) rfl
      have hsn2 : (((flattenB (bs.filter (fun b => decide (b.2.length = 1)))).map
          (fun i => i.id)).Nodup) := by
        rw [hfil] at hsn
        rw [flattenB_cons] at hsn
        simpa using hsn.of_cons
      have hxnotbs : ∀ b2 ∈ bs.filter (fun b => decide (b.2.length = 1)),
          ∀ y2 ∈ b2.2, y2.id ≠ x.id := by
        intro b2 hb2 y2 hy2
        rw [hfil, flattenB_cons] at hsn
        simp only [List.singleton_append, List.map_cons, List.nodup_cons] at hsn
        intro heq
        exact hsn.1 (heq ▸ List.mem_map_of_mem (fun i => i.id)
          (flattenB_mem.mpr ⟨b2, hb2, hy2⟩))
      have ha2 : ∀ st2proc, st2proc = proc ++ [x.id] →
          ∀ b2 ∈ bs, ∀ x2 ∈ b2.2, b2.2.length = 1 → x2.id ∉ st2proc := by
        intro st2proc hst b2 hb2 x2 hx2 hl
        rw [hst]
        intro hmem
        rcases List.mem_append.mp hmem with h1 | h2
        · exact ha b2 (List.mem_cons_of_mem _ hb2) x2 hx2 hl h1
        · have hb2f : b2 ∈ bs.filter (fun b => decide (b.2.length = 1)) :=
            List.mem_filter.mpr ⟨hb2, by simp [hl]⟩
          exact hxnotbs b2 hb2f x2 hx2 (List.mem_singleton.mp h2)
      cases hbm : bestMatchOf sim x eg with
      | some pr =>
        obtain ⟨k0, sc⟩ := pr
        have hk0 : k0 ∈ eg.map Prod.fst := by
          rcases bestMatchOf_some_key sim x eg none k0 sc hbm with h1 | h2
          · cases h1
          · exact h2
        have hstepped : singlePassStep sim (eg, proc) (k, [x]) =
            (mapPush k0 x eg, proc ++ [x.id]) := by
          rw [singlePassStep_singleton, if_neg hxp, hbm]
        rw [hstep _ hstepped]
        have hkeys : (mapPush k0 x eg).map Prod.fst = eg.map Prod.fst :=
          mapPush_keys k0 x eg
        have hihres := ih (mapPush k0 x eg) (proc ++ [x.id]) hknd2
          (ha2 _ rfl) hsn2
          (fun b2 hb2 hl => by
            rw [hkeys]
            exact hd b2 (List.mem_cons_of_mem _ hb2) hl)
        refine ⟨?_, ?_, ?_⟩
        · rw [hfil, flattenB_cons]
          have hpush := mapPush_flatten k0 x eg hk0
          have h1 := hihres.1
          refine h1.trans ?_
          have h2 := hpush.append_right
            (flattenB (bs.filter (fun b => decide (b.2.length = 1))))
          refine h2.trans ?_
          rw [List.append_assoc]
        · rw [hihres.2.1, hfil, flattenB_cons]
          simp
        · intro k2 hk2
          rcases hihres.2.2 k2 hk2 with h1 | ⟨b2, hb2, h3⟩
          · exact Or.inl (by rw [hkeys] at h1; exact h1)
          · exact Or.inr ⟨b2, List.mem_cons_of_mem _ hb2, h3⟩
      | none =>
        have habs : ("single_" ++ k) ∉ eg.map Prod.fst :=
          hd (k, [x]) (List.mem_cons_self _ _) rfl
        have hstepped : singlePassStep sim (eg, proc) (k, [x]) =
            (eg ++ [("single_" ++ k, [x])], proc ++ [x.id]) := by
          rw [singlePassStep_singleton, if_neg hxp, hbm,
            mapSet_absent ("single_" ++ k) [x] eg habs]
        rw [hstep _ hstepped]
        have hkeys : (eg ++ [("single_" ++ k, [x])]).map Prod.fst =
            eg.map Prod.fst ++ ["single_" ++ k] := by simp
        have hknotbs : k ∉ bs.map Prod.fst := by
          have := hknd
          simp only [List.map_cons, List.nodup_cons] at this
          exact this.1
        have hihres := ih (eg ++ [("single_" ++ k, [x])]) (proc ++ [x.id]) hknd2
          (ha2 _ rfl) hsn2
          (fun b2 hb2 hl => by
            rw [hkeys]
            intro hmem
            rcases List.mem_append.mp hmem with h1 | h2
            · exact hd b2 (List.mem_cons_of_mem _ hb2) hl h1
            · have hkk : "single_" ++ b2.1 = "single_" ++ k :=
                List.mem_singleton.mp h2
              have hb21 : b2.1 = k := string_append_left_cancel hkk
              exact hknotbs (hb21 ▸ List.mem_map_of_mem Prod.fst hb2))
        refine ⟨?_, ?_, ?_⟩
        · rw [hfil, flattenB_cons]
          have h1 := hihres.1
          refine h1.trans ?_
          rw [flattenB_append]
          have h2 : flattenB [(("single_" ++ k : String), [x])] = [x] := by
            simp [flattenB]
          rw [h2, List.append_assoc]
        · rw [hihres.2.1, hfil, flattenB_cons]
          simp
        · intro k2 hk2
          rcases hihres.2.2 k2 hk2 with h1 | ⟨b2, hb2, h3⟩
          · rw [hkeys] at h1
            rcases List.mem_append.mp h1 with h4 | h5
            · exact Or.inl h4
            · exact Or.inr ⟨(k, [x]), List.mem_cons_self _ _, rfl,
                List.mem_singleton.mp h5⟩
          · exact Or.inr ⟨b2, List.mem_cons_of_mem _ hb2, h3⟩

/-- When every icon's id is already processed, the final reconciliation is a
no-op. -/
theorem fallback_noop :
    ∀ (icons : List IconInfo) (st : BucketMap × List String),
      (∀ i ∈ icons, i.id ∈ st.2) → icons.foldl fallbackStep st = st := by
  intro icons
  induction icons with
  | nil => intro st _; rfl
  | cons i rest ih =>
    intro st h
    rw [List.foldl_cons]
    have hstep : fallbackStep st i = st := by
      unfold fallbackStep
      rw [if_pos (h i (List.mem_cons_self _ _))]
    rw [hstep]
    exact ih st (fun j hj => h j (List.mem_cons_of_mem _ hj))

theorem countP_id_eq_one :
    ∀ (l : List IconInfo), ((l.map (fun i => i.id)).Nodup) →
      ∀ i ∈ l, l.countP (fun j => decide (j.id = i.id)) = 1 := by
  intro l
  induction l with
  | nil => intro _ i hi; cases hi
  | cons x xs ih =>
    intro hnd i hi
    simp only [List.map_cons, List.nodup_cons] at hnd
    rcases List.mem_cons.mp hi with h1 | h2
    · rw [List.countP_cons]
      have hx : (fun j => decide (j.id = i.id)) x = true := by simp [h1]
      rw [if_pos hx]
      have hzero : xs.countP (fun j => decide (j.id = i.id)) = 0 := by
        rw [List.countP_eq_zero]
        intro j hj
        simp only [decide_eq_true_eq]
        intro heq
        exact hnd.1 (h1 ▸ heq ▸ List.mem_map_of_mem (fun i => i.id) hj)
      omega
    · rw [List.countP_cons]
      have hx : (fun j => decide (j.id = i.id)) x = false := by
        simp only [decide_eq_false_iff_not]
        intro heq
        exact hnd.1 (heq ▸ List.mem_map_of_mem (fun i => i.id) h2)
      rw [if_neg (by simp [hx])]
      have := ih hnd.2 i h2
      omega

/-- C2 (amended): provided the validated candidates carry pairwise-distinct
ids and no multi-member bucket key coincides with `"single_" ++` a singleton
bucket's key, the grouping phase of `consolidateSimilarIcons` places every
candidate in exactly one resulting group: the concatenation of all groups is a
permutation of the input, and each candidate's id occurs exactly once across
all groups. -/
theorem clusterer_exactly_once (sim : IconInfo → IconInfo → ℚ)
    (icons : List IconInfo)
    (hids : ((icons.map (fun i => i.id)).Nodup))
    (hcol : ∀ b ∈ buildIconGroups icons, 1 < b.2.length →
      ∀ b2 ∈ buildIconGroups icons, b2.2.length = 1 →
        b.1 ≠ "single_" ++ b2.1) :
    (flattenB (consolidateGroups sim icons)).Perm icons ∧
    ∀ i ∈ icons,
      ((flattenB (consolidateGroups sim icons)).filter
        (fun j => decide (j.id = i.id))).length = 1 := by
  have hprops := buildIconGroups_props icons
  have hflat := buildIconGroups_flatten icons
  have hcompl : (buildIconGroups icons).filter
      (fun b => !decide (1 < b.2.length)) =
      (buildIconGroups icons).filter (fun b => decide (b.2.length = 1)) := by
    apply List.filter_congr
    intro b hb
    have hne := hprops.2 b hb
    have hpos : 0 < b.2.length := List.length_pos.mpr hne
    by_cases h : 1 < b.2.length
    · simp [h, show b.2.length ≠ 1 from by omega]
    · simp [h, show b.2.length = 1 from by omega]
  have hsplit := flattenB_filter_split
    (fun b => decide (1 < b.2.length)) (buildIconGroups icons)
  rw [hcompl] at hsplit
  have hidsall : ((flattenB (buildIconGroups icons)).map (fun i => i.id)).Nodup :=
    ((hflat.map (fun i => i.id)).nodup_iff).mpr hids
  have hidssplit := ((hsplit.map (fun i => i.id)).nodup_iff).mp hidsall
  rw [List.map_append] at hidssplit
  obtain ⟨hndM, hndS, hdisj⟩ := List.nodup_append.mp hidssplit
  have hA : ∀ b ∈ buildIconGroups icons, ∀ x ∈ b.2, b.2.length = 1 →
      x.id ∉ (flattenB ((buildIconGroups icons).filter
        (fun b => decide (1 < b.2.length)))).map (fun i => i.id) := by
    intro b hb x hx hl
    have hbS : b ∈ (buildIconGroups icons).filter
        (fun b => decide (b.2.length = 1)) :=
      List.mem_filter.mpr ⟨hb, by simp [hl]⟩
    have hxS : x.id ∈ (flattenB ((buildIconGroups icons).filter
        (fun b => decide (b.2.length = 1)))).map (fun i => i.id) :=
      List.mem_map_of_mem (fun i => i.id) (flattenB_mem.mpr ⟨b, hbS, hx⟩)
    exact fun hmem => (hdisj hmem) hxS
  have hD : ∀ b ∈ buildIconGroups icons, b.2.length = 1 →
      ("single_" ++ b.1) ∉ ((buildIconGroups icons).filter
        (fun b => decide (1 < b.2.length))).map Prod.fst := by
    intro b hb hl hmem
    obtain ⟨bm, hbm, heq⟩ := List.mem_map.mp hmem
    obtain ⟨hbmB, hbml⟩ := List.mem_filter.mp hbm
    exact hcol bm hbmB (by simpa using hbml) b hb hl heq
  have hsp := singlePass_spec sim (buildIconGroups icons)
    ((buildIconGroups icons).filter (fun b => decide (1 < b.2.length)))
    ((flattenB ((buildIconGroups icons).filter
      (fun b => decide (1 < b.2.length)))).map (fun i => i.id))
    hprops.1 hA hndS hD
  have hcons : consolidateGroups sim icons =
      (icons.foldl fallbackStep
        (singlePass sim (buildIconGroups icons)
          (multiPass (buildIconGroups icons)))).1 := rfl
  rw [multiPass_eq] at hcons
  have hins : ∀ i ∈ icons,
      i.id ∈ (singlePass sim (buildIconGroups icons)
        (((buildIconGroups icons).filter (fun b => decide (1 < b.2.length))),
          ((flattenB ((buildIconGroups icons).filter
            (fun b => decide (1 < b.2.length)))).map (fun i => i.id)))).2 := by
    intro i hi
    rw [hsp.2.1]
    have hiB : i ∈ flattenB (buildIconGroups icons) := hflat.mem_iff.mpr hi
    have hiMS := hsplit.mem_iff.mp hiB
    rcases List.mem_append.mp hiMS with h1 | h2
    · exact List.mem_append.mpr (Or.inl (List.mem_map_of_mem (fun i => i.id) h1))
    · exact List.mem_append.mpr (Or.inr (List.mem_map_of_mem (fun i => i.id) h2))
  rw [fallback_noop icons _ hins] at hcons
  have hfinal : (flattenB (consolidateGroups sim icons)).Perm icons := by
    rw [hcons]
    exact (hsp.1.trans hsplit.symm).trans hflat
  refine ⟨hfinal, ?_⟩
  intro i hi
  rw [← List.countP_eq_length_filter]
  rw [(hfinal.countP_eq (fun j => decide (j.id = i.id)))]
  exact countP_id_eq_one icons hids i hi

/-- Witness for C2 on a concrete three-candidate input with distinct ids and
collision-free keys. -/
theorem clusterer_exactly_once_witness :
    (flattenB (consolidateGroups simNoVisual [cexB1, cexB2, cexC])).Perm
      [cexB1, cexB2, cexC] ∧
    ((flattenB (consolidateGroups simNoVisual [cexB1, cexB2, cexC])).filter
      (fun j => decide (j.id = cexB1.id))).length = 1 := by
  have h := clusterer_exactly_once simNoVisual [cexB1, cexB2, cexC]
    (by decide)
    (by rw [cex_buckets]; decide)
  exact ⟨h.1, h.2 cexB1 (List.mem_cons_self _ _)⟩

/-- First member of the colliding multi-member bucket of the C2
counterexample: a library-style name whose library part starts with
`single_`. -/
def cexM1 : IconInfo :=
  { id := "m1x", name := "single_x/a", type := NodeType.FRAME,
    width := 24, height := 24, page := "P", source := "S", status := "unresolved" }

/-- Second member of the same bucket. -/
def cexM2 : IconInfo :=
  { id := "m2x", name := "single_x/a", type := NodeType.FRAME,
    width := 24, height := 24, page := "P", source := "S", status := "unresolved" }

/-- The singleton of the C2 counterexample: its bucket key prefixed with
`single_` coincides with the multi-member bucket's key, and its similarity to
that bucket's representative is only 69, so it does not join. -/
def cexA : IconInfo :=
  { id := "a3x", name := "x/a", type := NodeType.FRAME,
    width := 21, height := 21, page := "P", source := "S", status := "unresolved" }

theorem simNoVisual_drop_69 : simNoVisual cexA cexM1 = 69 := by
  unfold simNoVisual calculateIconSimilarity calculateNameSimilarity
  norm_num [cexA, cexM1]
  simp only [show parseLibrary ("x/a").data =
      some (("x").data, ("a").data) from by decide,
    show parseLibrary ("single_x/a").data =
      some (("single_x").data, ("a").data) from by decide]
  norm_num +decide

theorem cex_keyM1 : groupKeyOf cexM1 = "single_x/a_24x24_S_P" := by
  unfold groupKeyOf
  norm_num [cexM1, show parseLibrary ("single_x/a").data =
    some (("single_x").data, ("a").data) from by decide, round_eq]
  decide

theorem cex_keyM2 : groupKeyOf cexM2 = "single_x/a_24x24_S_P" := by
  unfold groupKeyOf
  norm_num [cexM2, show parseLibrary ("single_x/a").data =
    some (("single_x").data, ("a").data) from by decide, round_eq]
  decide

theorem cex_keyA : groupKeyOf cexA = "x/a_24x24_S_P" := by
  unfold groupKeyOf
  norm_num [cexA, show parseLibrary ("x/a").data =
    some (("x").data, ("a").data) from by decide, round_eq]
  decide

theorem cex_drop_buckets :
    buildIconGroups [cexM1, cexM2, cexA] =
      [("single_x/a_24x24_S_P", [cexM1, cexM2]), ("x/a_24x24_S_P", [cexA])] := by
  unfold buildIconGroups
  simp only [List.foldl_cons, List.foldl_nil]
  rw [cex_keyM1, cex_keyM2, cex_keyA]
  decide

theorem cex_drop_bestMatch :
    bestMatchOf simNoVisual cexA [("single_x/a_24x24_S_P", [cexM1, cexM2])] =
      none := by
  unfold bestMatchOf bestMatchStep
  simp only [List.foldl_cons, List.foldl_nil]
  rw [if_neg (by decide : ¬([cexM1, cexM2].length ≤ 1)),
    if_neg (by decide : ¬(cexA.page ≠ cexM1.page)), simNoVisual_drop_69]
  norm_num

/-- C2 counterexample: the unqualified claim fails on the code.  With a
multi-member bucket whose key happens to equal `"single_" ++` the singleton's
key, the second pass's `enhancedGroups.set(newKey, [singleIcon])` overwrites
the multi-member group, silently dropping both of its candidates — the final
reconciliation does not restore them because their ids were already marked
processed.  All three input ids are distinct, every input is validated, yet
`cexM1` and `cexM2` appear in no resulting group. -/
theorem clusterer_drop_counterexample :
    (([cexM1, cexM2, cexA].map (fun i => i.id)).Nodup) ∧
    consolidateGroups simNoVisual [cexM1, cexM2, cexA] =
      [("single_x/a_24x24_S_P", [cexA])] ∧
    cexM1 ∉ flattenB (consolidateGroups simNoVisual [cexM1, cexM2, cexA]) := by
  have hmain : consolidateGroups simNoVisual [cexM1, cexM2, cexA] =
      [("single_x/a_24x24_S_P", [cexA])] := by
    show (List.foldl fallbackStep
        (singlePass simNoVisual (buildIconGroups [cexM1, cexM2, cexA])
          (multiPass (buildIconGroups [cexM1, cexM2, cexA])))
        [cexM1, cexM2, cexA]).1 = [("single_x/a_24x24_S_P", [cexA])]
    rw [cex_drop_buckets]
    rw [show multiPass [("single_x/a_24x24_S_P", [cexM1, cexM2]),
        ("x/a_24x24_S_P", [cexA])] =
      ([("single_x/a_24x24_S_P", [cexM1, cexM2])], ["m1x", "m2x"]) from by decide]
    unfold singlePass
    simp only [List.foldl_cons, List.foldl_nil]
    rw [show singlePassStep simNoVisual
        ([("single_x/a_24x24_S_P", [cexM1, cexM2])], ["m1x", "m2x"])
        ("single_x/a_24x24_S_P", [cexM1, cexM2]) =
      ([("single_x/a_24x24_S_P", [cexM1, cexM2])], ["m1x", "m2x"]) from rfl]
    show (List.foldl fallbackStep
      (singlePassStep simNoVisual
        ([("single_x/a_24x24_S_P", [cexM1, cexM2])], ["m1x", "m2x"])
        ("x/a_24x24_S_P", [cexA])) [cexM1, cexM2, cexA]).1 = _
    rw [show singlePassStep simNoVisual
        ([("single_x/a_24x24_S_P", [cexM1, cexM2])], ["m1x", "m2x"])
        ("x/a_24x24_S_P", [cexA]) =
      ([("single_x/a_24x24_S_P", [cexA])], ["m1x", "m2x", "a3x"]) from ?_]
    · decide
    · rw [singlePassStep_singleton simNoVisual
        ([("single_x/a_24x24_S_P", [cexM1, cexM2])], ["m1x", "m2x"])
        ("x/a_24x24_S_P") cexA]
      show (if cexA.id ∈ (["m1x", "m2x"] : List String) then
          (([("single_x/a_24x24_S_P", [cexM1, cexM2])] : BucketMap),
            (["m1x", "m2x"] : List String))
        else
          match bestMatchOf simNoVisual cexA
              [("single_x/a_24x24_S_P", [cexM1, cexM2])] with
          | some (k0, _) =>
            (mapPush k0 cexA [("single_x/a_24x24_S_P", [cexM1, cexM2])],
              ["m1x", "m2x"] ++ [cexA.id])
          | none =>
            (mapSet ("single_" ++ "x/a_24x24_S_P") [cexA]
              [("single_x/a_24x24_S_P", [cexM1, cexM2])],
              ["m1x", "m2x"] ++ [cexA.id])) =
        ([("single_x/a_24x24_S_P", [cexA])], ["m1x", "m2x", "a3x"])
      rw [if_neg (by decide : ¬(cexA.id ∈ (["m1x", "m2x"] : List String))),
        cex_drop_bestMatch]
      decide
  refine ⟨by decide, hmain, ?_⟩
  rw [hmain]
  decide

/-! ## C8 -/

/-- A candidate with status `"instance"` carries a master id recorded in the
given master set. -/
def instanceLinked (mids : List String) (i : IconInfo) : Prop :=
  i.status = "instance" → ∃ mid, i.masterComponentId = some mid ∧ mid ∈ mids

theorem instanceLinked_core {mids : List String} {a b : IconInfo}
    (hst : a.status = b.status) (hmc : a.masterComponentId = b.masterComponentId)
    (hb : instanceLinked mids b) : instanceLinked mids a := by
  intro hs
  obtain ⟨mid, h1, h2⟩ := hb (hst ▸ hs)
  exact ⟨mid, hmc ▸ h1, h2⟩

theorem updateFirstIcon_pres {mids : List String} (cid : String)
    (pv : Option String) (n : Nat) :
    ∀ (l : List IconInfo), (∀ i ∈ l, instanceLinked mids i) →
      ∀ i ∈ updateFirstIcon cid pv n l, instanceLinked mids i := by
  intro l
  induction l with
  | nil => intro _ i hi; cases hi
  | cons j rest ih =>
    intro h i hi
    unfold updateFirstIcon at hi
    by_cases hj : j.id = cid
    · rw [if_pos hj] at hi
      rcases List.mem_cons.mp hi with h1 | h2
      · exact h1 ▸ instanceLinked_core rfl rfl (h j (List.mem_cons_self _ _))
      · exact h i (List.mem_cons_of_mem _ h2)
    · rw [if_neg hj] at hi
      rcases List.mem_cons.mp hi with h1 | h2
      · exact h1 ▸ h j (List.mem_cons_self _ _)
      · exact ih (fun x hx => h x (List.mem_cons_of_mem _ hx)) i h2

theorem masterIconInfo_linked (mids : List String) (rootName : String)
    (previewOf : String → Option String) (pageName : String) (c : FigNode)
    (vars : List VariantNode) (w h : ℚ) :
    instanceLinked mids (masterIconInfo rootName previewOf pageName c vars w h) := by
  intro hs
  exact absurd (show ("master" : String) = "instance" from hs) (by decide)

theorem unresolvedIconInfo_linked (mids : List String) (rootName : String)
    (previewOf : String → Option String) (pageName : String) (n : FigNode)
    (w h : ℚ) :
    instanceLinked mids (unresolvedIconInfo rootName previewOf pageName n w h) := by
  intro hs
  exact absurd (show ("unresolved" : String) = "instance" from hs) (by decide)

theorem phase1Comps_pres (mids : List String) (rootName : String)
    (previewOf : String → Option String) (pageName : String) :
    ∀ (comps : List (FigNode × List VariantNode)) (allIcons : List IconInfo)
      (ms : List String),
      (∀ i ∈ allIcons, instanceLinked mids i) →
      ∀ i ∈ (phase1Comps rootName previewOf pageName comps allIcons ms).1,
        instanceLinked mids i := by
  intro comps
  induction comps with
  | nil => intro allIcons ms h i hi; exact h i hi
  | cons cv rest ih =>
    intro allIcons ms h i hi
    obtain ⟨c, vars⟩ := cv
    rw [show phase1Comps rootName previewOf pageName ((c, vars) :: rest) allIcons ms =
      (if isLikelyIcon c = false then
        phase1Comps rootName previewOf pageName rest allIcons ms
      else
        match c.bounds with
        | none => phase1Comps rootName previewOf pageName rest allIcons ms
        | some (w, h) =>
          if c.name = "" then phase1Comps rootName previewOf pageName rest allIcons ms
          else
            let mids1 := addId ms c.id
            let allIcons1 :=
              allIcons ++ [masterIconInfo rootName previewOf pageName c vars w h]
            let stepped :=
              if c.type = NodeType.COMPONENT_SET ∧ 0 < vars.length then
                let collected := collectVariants previewOf vars
                let mids2 := collected.1.foldl addId mids1
                if 0 < collected.1.length then
                  (updateFirstIcon c.id collected.2 collected.1.length allIcons1,
                    mids2)
                else (allIcons1, mids2)
              else (allIcons1, mids1)
            if MAX_ICONS ≤ stepped.1.length then stepped
            else phase1Comps rootName previewOf pageName rest stepped.1 stepped.2)
      from by rw [phase1Comps]] at hi
    by_cases hlike : isLikelyIcon c = false
    · rw [if_pos hlike] at hi
      exact ih allIcons ms h i hi
    · rw [if_neg hlike] at hi
      cases hb : c.bounds with
      | none =>
        rw [hb] at hi
        exact ih allIcons ms h i hi
      | some wh =>
        obtain ⟨w2, h2⟩ := wh
        rw [hb] at hi
        have hi2 : i ∈ (if c.name = "" then
            phase1Comps rootName previewOf pageName rest allIcons ms
          else
            if MAX_ICONS ≤
                (if c.type = NodeType.COMPONENT_SET ∧ 0 < vars.length then
                  if 0 < (collectVariants previewOf vars).1.length then
                    (updateFirstIcon c.id (collectVariants previewOf vars).2
                      (collectVariants previewOf vars).1.length
                      (allIcons ++
                        [masterIconInfo rootName previewOf pageName c vars w2 h2]),
                     (collectVariants previewOf vars).1.foldl addId
                       (addId ms c.id))
                  else
                    (allIcons ++
                      [masterIconInfo rootName previewOf pageName c vars w2 h2],
                     (collectVariants previewOf vars).1.foldl addId
                       (addId ms c.id))
                else
                  (allIcons ++
                    [masterIconInfo rootName previewOf pageName c vars w2 h2],
                   addId ms c.id)).1.length then
              (if c.type = NodeType.COMPONENT_SET ∧ 0 < vars.length then
                if 0 < (collectVariants previewOf vars).1.length then
                  (updateFirstIcon c.id (collectVariants previewOf vars).2
                    (collectVariants previewOf vars).1.length
                    (allIcons ++
                      [masterIconInfo rootName previewOf pageName c vars w2 h2]),
                   (collectVariants previewOf vars).1.foldl addId
                     (addId ms c.id))
                else
                  (allIcons ++
                    [masterIconInfo rootName previewOf pageName c vars w2 h2],
                   (collectVariants previewOf vars).1.foldl addId
                     (addId ms c.id))
              else
                (allIcons ++
                  [masterIconInfo rootName previewOf pageName c vars w2 h2],
                 addId ms c.id))
            else
              phase1Comps rootName previewOf pageName rest
                (if c.type = NodeType.COMPONENT_SET ∧ 0 < vars.length then
                  if 0 < (collectVariants previewOf vars).1.length then
                    (updateFirstIcon c.id (collectVariants previewOf vars).2
                      (collectVariants previewOf vars).1.length
                      (allIcons ++
                        [masterIconInfo rootName previewOf pageName c vars w2 h2]),
                     (collectVariants previewOf vars).1.foldl addId
                       (addId ms c.id))
                  else
                    (allIcons ++
                      [masterIconInfo rootName previewOf pageName c vars w2 h2],
                     (collectVariants previewOf vars).1.foldl addId
                       (addId ms c.id))
                else
                  (allIcons ++
                    [masterIconInfo rootName previewOf pageName c vars w2 h2],
                   addId ms c.id)).1
                (if c.type = NodeType.COMPONENT_SET ∧ 0 < vars.length then
                  if 0 < (collectVariants previewOf vars).1.length then
                    (updateFirstIcon c.id (collectVariants previewOf vars).2
                      (collectVariants previewOf vars).1.length
                      (allIcons ++
                        [masterIconInfo rootName previewOf pageName c vars w2 h2]),
                     (collectVariants previewOf vars).1.foldl addId
                       (addId ms c.id))
                  else
                    (allIcons ++
                      [masterIconInfo rootName previewOf pageName c vars w2 h2],
                     (collectVariants previewOf vars).1.foldl addId
                       (addId ms c.id))
                else
                  (allIcons ++
                    [masterIconInfo rootName previewOf pageName c vars w2 h2],
                   addId ms c.id)).2).1 := hi
        clear hi
        by_cases hn : c.name = ""
        · rw [if_pos hn] at hi2
          exact ih allIcons ms h i hi2
        · rw [if_neg hn] at hi2
          have hbase : ∀ j ∈ allIcons ++
              [masterIconInfo rootName previewOf pageName c vars w2 h2],
              instanceLinked mids j := by
            intro j hj
            rcases List.mem_append.mp hj with h1 | h3
            · exact h j h1
            · rw [List.mem_singleton.mp h3]
              exact masterIconInfo_linked mids rootName previewOf pageName c vars
                w2 h2
          have hupd : ∀ j ∈ updateFirstIcon c.id (collectVariants previewOf vars).2
              (collectVariants previewOf vars).1.length
              (allIcons ++ [masterIconInfo rootName previewOf pageName c vars w2 h2]),
              instanceLinked mids j :=
            updateFirstIcon_pres c.id (collectVariants previewOf vars).2
              (collectVariants previewOf vars).1.length _ hbase
          by_cases hset : c.type = NodeType.COMPONENT_SET ∧ 0 < vars.length
          · rw [if_pos hset] at hi2
            by_cases hcv : 0 < (collectVariants previewOf vars).1.length
            · rw [if_pos hcv] at hi2
              simp only [] at hi2
              by_cases hmax : MAX_ICONS ≤
                  (updateFirstIcon c.id (collectVariants previewOf vars).2
                    (collectVariants previewOf vars).1.length
                    (allIcons ++
                      [masterIconInfo rootName previewOf pageName c vars
                        w2 h2])).length
              · rw [if_pos hmax] at hi2
                exact hupd i hi2
              · rw [if_neg hmax] at hi2
                exact ih _ _ hupd i hi2
            · rw [if_neg hcv] at hi2
              simp only [] at hi2
              by_cases hmax : MAX_ICONS ≤ (allIcons ++
                  [masterIconInfo rootName previewOf pageName c vars w2 h2]).length
              · rw [if_pos hmax] at hi2
                exact hbase i hi2
              · rw [if_neg hmax] at hi2
                exact ih _ _ hbase i hi2
          · rw [if_neg hset] at hi2
            simp only [] at hi2
            by_cases hmax : MAX_ICONS ≤ (allIcons ++
                [masterIconInfo rootName previewOf pageName c vars w2 h2]).length
            · rw [if_pos hmax] at hi2
              exact hbase i hi2
            · rw [if_neg hmax] at hi2
              exact ih _ _ hbase i hi2

theorem phase1Pages_pres (mids : List String) (rootName : String)
    (previewOf : String → Option String) :
    ∀ (pages : List PageData) (st : List IconInfo × List String),
      (∀ i ∈ st.1, instanceLinked mids i) →
      ∀ i ∈ (phase1Pages rootName previewOf pages st).1, instanceLinked mids i := by
  intro pages
  induction pages with
  | nil => intro st h i hi; exact h i hi
  | cons p rest ih =>
    intro st h i hi
    rw [show phase1Pages rootName previewOf (p :: rest) st =
      (let st1 := phase1Comps rootName previewOf p.name p.components st.1 st.2
       if MAX_ICONS ≤ st1.1.length then st1
       else phase1Pages rootName previewOf rest st1) from by rw [phase1Pages]] at hi
    simp only [] at hi
    have h1 := phase1Comps_pres mids rootName previewOf p.name p.components st.1
      st.2 h
    by_cases hmax : MAX_ICONS ≤
        (phase1Comps rootName previewOf p.name p.components st.1 st.2).1.length
    · rw [if_pos hmax] at hi
      exact h1 i hi
    · rw [if_neg hmax] at hi
      exact ih _ h1 i hi

theorem phase2Insts_pres (rootName : String)
    (previewOf : String → Option String) (pageName : String)
    (mids : List String) :
    ∀ (insts : List InstNode) (acc : List IconInfo),
      (∀ i ∈ acc, instanceLinked mids i) →
      ∀ i ∈ phase2Insts rootName previewOf pageName mids insts acc,
        instanceLinked mids i := by
  intro insts
  induction insts with
  | nil => intro acc h i hi; exact h i hi
  | cons inst rest ih =>
    intro acc h i hi
    rw [show phase2Insts rootName previewOf pageName mids (inst :: rest) acc =
      (if inst.node.name = "" then
        phase2Insts rootName previewOf pageName mids rest acc
      else
        match inst.main with
        | none => phase2Insts rootName previewOf pageName mids rest acc
        | some mc =>
          if mc.id ∈ mids then
            if mc.name = "" then phase2Insts rootName previewOf pageName mids rest acc
            else
              match inst.node.bounds with
              | none => phase2Insts rootName previewOf pageName mids rest acc
              | some (w, h) =>
                let acc1 :=
                  acc ++ [instanceIconInfo rootName previewOf pageName inst.node mc w h]
                if MAX_ICONS ≤ acc1.length then acc1
                else phase2Insts rootName previewOf pageName mids rest acc1
          else phase2Insts rootName previewOf pageName mids rest acc)
      from by rw [phase2Insts]] at hi
    by_cases hn : inst.node.name = ""
    · rw [if_pos hn] at hi
      exact ih acc h i hi
    · rw [if_neg hn] at hi
      cases hm : inst.main with
      | none =>
        rw [hm] at hi
        exact ih acc h i hi
      | some mc =>
        rw [hm] at hi
        have hi2 : i ∈ (if mc.id ∈ mids then
            if mc.name = "" then phase2Insts rootName previewOf pageName mids rest acc
            else
              match inst.node.bounds with
              | none => phase2Insts rootName previewOf pageName mids rest acc
              | some (w, h) =>
                if MAX_ICONS ≤ (acc ++
                    [instanceIconInfo rootName previewOf pageName inst.node mc
                      w h]).length then
                  acc ++ [instanceIconInfo rootName previewOf pageName inst.node mc w h]
                else
                  phase2Insts rootName previewOf pageName mids rest
                    (acc ++
                      [instanceIconInfo rootName previewOf pageName inst.node mc w h])
          else phase2Insts rootName previewOf pageName mids rest acc) := hi
        clear hi
        by_cases hmid : mc.id ∈ mids
        · rw [if_pos hmid] at hi2
          by_cases hmn : mc.name = ""
          · rw [if_pos hmn] at hi2
            exact ih acc h i hi2
          · rw [if_neg hmn] at hi2
            cases hb : inst.node.bounds with
            | none =>
              rw [hb] at hi2
              exact ih acc h i hi2
            | some wh =>
              obtain ⟨w2, h2⟩ := wh
              rw [hb] at hi2
              have hi3 : i ∈ (if MAX_ICONS ≤ (acc ++
                  [instanceIconInfo rootName previewOf pageName inst.node mc
                    w2 h2]).length then
                  acc ++
                    [instanceIconInfo rootName previewOf pageName inst.node mc w2 h2]
                else
                  phase2Insts rootName previewOf pageName mids rest
                    (acc ++
                      [instanceIconInfo rootName previewOf pageName inst.node mc
                        w2 h2])) := hi2
              have hacc1 : ∀ j ∈ acc ++
                  [instanceIconInfo rootName previewOf pageName inst.node mc w2 h2],
                  instanceLinked mids j := by
                intro j hj
                rcases List.mem_append.mp hj with h1 | h3
                · exact h j h1
                · rw [List.mem_singleton.mp h3]
                  intro _
                  exact ⟨mc.id, rfl, hmid⟩
              by_cases hmax : MAX_ICONS ≤ (acc ++
                  [instanceIconInfo rootName previewOf pageName inst.node mc
                    w2 h2]).length
              · rw [if_pos hmax] at hi3
                exact hacc1 i hi3
              · rw [if_neg hmax] at hi3
                exact ih _ hacc1 i hi3
        · rw [if_neg hmid] at hi2
          exact ih acc h i hi2

theorem phase2Pages_pres (rootName : String)
    (previewOf : String → Option String) (mids : List String) :
    ∀ (pages : List PageData) (acc : List IconInfo),
      (∀ i ∈ acc, instanceLinked mids i) →
      ∀ i ∈ phase2Pages rootName previewOf mids pages acc, instanceLinked mids i := by
  intro pages
  induction pages with
  | nil => intro acc h i hi; exact h i hi
  | cons p rest ih =>
    intro acc h i hi
    rw [show phase2Pages rootName previewOf mids (p :: rest) acc =
      (let acc1 := phase2Insts rootName previewOf p.name mids p.instances acc
       if MAX_ICONS ≤ acc1.length then acc1
       else phase2Pages rootName previewOf mids rest acc1) from by
        rw [phase2Pages]] at hi
    simp only [] at hi
    have h1 := phase2Insts_pres rootName previewOf p.name mids p.instances acc h
    by_cases hmax : MAX_ICONS ≤
        (phase2Insts rootName previewOf p.name mids p.instances acc).length
    · rw [if_pos hmax] at hi
      exact h1 i hi
    · rw [if_neg hmax] at hi
      exact ih _ h1 i hi

theorem phase3Nodes_pres (mids : List String) (rootName : String)
    (previewOf : String → Option String) (pageName : String) :
    ∀ (nodes : List FigNode) (acc : List IconInfo),
      (∀ i ∈ acc, instanceLinked mids i) →
      ∀ i ∈ phase3Nodes rootName previewOf pageName nodes acc,
        instanceLinked mids i := by
  intro nodes
  induction nodes with
  | nil => intro acc h i hi; exact h i hi
  | cons n rest ih =>
    intro acc h i hi
    rw [show phase3Nodes rootName previewOf pageName (n :: rest) acc =
      (if n.name = "" then phase3Nodes rootName previewOf pageName rest acc
       else if isLikelyIcon n = false then
        phase3Nodes rootName previewOf pageName rest acc
       else
        match n.bounds with
        | none => phase3Nodes rootName previewOf pageName rest acc
        | some (w, h) =>
          let acc1 := acc ++ [unresolvedIconInfo rootName previewOf pageName n w h]
          if MAX_ICONS ≤ acc1.length then acc1
          else phase3Nodes rootName previewOf pageName rest acc1)
      from by rw [phase3Nodes]] at hi
    by_cases hn : n.name = ""
    · rw [if_pos hn] at hi
      exact ih acc h i hi
    · rw [if_neg hn] at hi
      by_cases hlike : isLikelyIcon n = false
      · rw [if_pos hlike] at hi
        exact ih acc h i hi
      · rw [if_neg hlike] at hi
        cases hb : n.bounds with
        | none =>
          rw [hb] at hi
          exact ih acc h i hi
        | some wh =>
          obtain ⟨w2, h2⟩ := wh
          rw [hb] at hi
          have hi2 : i ∈ (if MAX_ICONS ≤ (acc ++
              [unresolvedIconInfo rootName previewOf pageName n w2 h2]).length then
              acc ++ [unresolvedIconInfo rootName previewOf pageName n w2 h2]
            else
              phase3Nodes rootName previewOf pageName rest
                (acc ++ [unresolvedIconInfo rootName previewOf pageName n w2 h2])) :=
            hi
          clear hi
          have hacc1 : ∀ j ∈ acc ++
              [unresolvedIconInfo rootName previewOf pageName n w2 h2],
              instanceLinked mids j := by
            intro j hj
            rcases List.mem_append.mp hj with h1 | h3
            · exact h j h1
            · rw [List.mem_singleton.mp h3]
              exact unresolvedIconInfo_linked mids rootName previewOf pageName n
                w2 h2
          by_cases hmax : MAX_ICONS ≤
              (acc ++ [unresolvedIconInfo rootName previewOf pageName n w2 h2]).length
          · rw [if_pos hmax] at hi2
            exact hacc1 i hi2
          · rw [if_neg hmax] at hi2
            exact ih _ hacc1 i hi2

theorem phase3Pages_pres (rootName : String)
    (previewOf : String → Option String) (mids : List String) :
    ∀ (pages : List PageData) (acc : List IconInfo),
      (∀ i ∈ acc, instanceLinked mids i) →
      ∀ i ∈ phase3Pages rootName previewOf mids pages acc, instanceLinked mids i := by
  intro pages
  induction pages with
  | nil => intro acc h i hi; exact h i hi
  | cons p rest ih =>
    intro acc h i hi
    rw [show phase3Pages rootName previewOf mids (p :: rest) acc =
      (if MAX_ICONS ≤ acc.length then acc
       else
        let pot := p.unresolvedNodes.take (MAX_UNRESOLVED_PER_PAGE * 3)
        let filtered := pot.filter (fun n => outsideMasterSystem mids n.ancestors)
        let finalNodes := filtered.take MAX_UNRESOLVED_PER_PAGE
        let acc1 := phase3Nodes rootName previewOf p.name finalNodes acc
        if MAX_ICONS ≤ acc1.length then acc1
        else phase3Pages rootName previewOf mids rest acc1) from by
        rw [phase3Pages]] at hi
    by_cases hmax0 : MAX_ICONS ≤ acc.length
    · rw [if_pos hmax0] at hi
      exact h i hi
    · rw [if_neg hmax0] at hi
      simp only [] at hi
      have h1 := phase3Nodes_pres mids rootName previewOf p.name
        (((p.unresolvedNodes.take (MAX_UNRESOLVED_PER_PAGE * 3)).filter
          (fun n => outsideMasterSystem mids n.ancestors)).take
          MAX_UNRESOLVED_PER_PAGE) acc h
      by_cases hmax : MAX_ICONS ≤ (phase3Nodes rootName previewOf p.name
          (((p.unresolvedNodes.take (MAX_UNRESOLVED_PER_PAGE * 3)).filter
            (fun n => outsideMasterSystem mids n.ancestors)).take
            MAX_UNRESOLVED_PER_PAGE) acc).length
      · rw [if_pos hmax] at hi
        exact h1 i hi
      · rw [if_neg hmax] at hi
        exact ih _ h1 i hi

theorem calculateInstanceCounts_pres (mids : List String) (l : List IconInfo)
    (h : ∀ i ∈ l, instanceLinked mids i) :
    ∀ i ∈ calculateInstanceCounts l, instanceLinked mids i := by
  intro i hi
  unfold calculateInstanceCounts at hi
  simp only [List.mem_map] at hi
  obtain ⟨j, hj, hij⟩ := hi
  by_cases hst : j.status = "master"
  · rw [if_pos hst] at hij
    exact hij ▸ instanceLinked_core rfl rfl (h j hj)
  · rw [if_neg hst] at hij
    exact hij ▸ h j hj

theorem analyzeIconConsistency_pres (mids : List String) (l : List IconInfo)
    (h : ∀ i ∈ l, instanceLinked mids i) :
    ∀ i ∈ analyzeIconConsistency l, instanceLinked mids i := by
  intro i hi
  simp only [analyzeIconConsistency, List.mem_map] at hi
  obtain ⟨j, hj, hij⟩ := hi
  have hp := analyzeOne_preserves l
    (l.foldl (fun m i => bucketInsert (sizeKeyOf i) i m) [])
    (l.foldl (fun m i => bucketInsert (namePatternOf i) i m) [])
    (l.foldl (fun m i => bucketInsert i.page i m) []) j
  exact instanceLinked_core (hij ▸ hp.2.2.2.2.2.2.2.1)
    (hij ▸ hp.2.2.2.2.2.2.2.2) (h j hj)

theorem applyMarkingsToIcons_pres (mids : List String)
    (markings : String → Option (Bool × Bool)) (l : List IconInfo)
    (h : ∀ i ∈ l, instanceLinked mids i) :
    ∀ i ∈ applyMarkingsToIcons markings l, instanceLinked mids i := by
  intro i hi
  simp only [applyMarkingsToIcons, List.mem_map] at hi
  obtain ⟨j, hj, hij⟩ := hi
  exact hij ▸ instanceLinked_core rfl rfl (h j hj)

/-- C8: every candidate produced by a scan with status `"instance"` carries a
`masterComponentId` that belongs to the master-id set recorded during
phase 1 (component ids and icon-sized component-set variant ids); an instance
whose resolved main component is not in that set is never emitted. -/
theorem scan_instance_has_master (env : ScanEnv) (c : IconInfo)
    (hc : c ∈ (scanForIcons env).discoveredIcons)
    (hs : c.status = "instance") :
    ∃ mid, c.masterComponentId = some mid ∧ mid ∈ masterIdsOf env := by
  by_cases hload : env.loadOk = false
  · have hempty : (scanForIcons env).discoveredIcons = ([] : List IconInfo) := by
      unfold scanForIcons
      rw [if_pos hload]
    rw [hempty] at hc
    cases hc
  · have hall : ∀ i ∈ (scanForIcons env).discoveredIcons,
        instanceLinked (masterIdsOf env) i := by
      have hp1 : ∀ i ∈ (phase1Result env).1, instanceLinked (masterIdsOf env) i := by
        unfold phase1Result
        exact phase1Pages_pres (masterIdsOf env) env.rootName env.previewOf
          (scanPages env) ([], []) (fun i hi => by cases hi)
      have hp2 : ∀ i ∈ phase2Pages env.rootName env.previewOf (phase1Result env).2
          (scanPages env) (phase1Result env).1,
          instanceLinked (masterIdsOf env) i :=
        phase2Pages_pres env.rootName env.previewOf (masterIdsOf env)
          (scanPages env) (phase1Result env).1 hp1
      have hp3 : ∀ i ∈ phase3Pages env.rootName env.previewOf (phase1Result env).2
          (scanPages env)
          (phase2Pages env.rootName env.previewOf (phase1Result env).2
            (scanPages env) (phase1Result env).1),
          instanceLinked (masterIdsOf env) i :=
        phase3Pages_pres env.rootName env.previewOf (phase1Result env).2 _ _ hp2
      have hpost := applyMarkingsToIcons_pres (masterIdsOf env) env.markings _
        (analyzeIconConsistency_pres (masterIdsOf env) _
          (calculateInstanceCounts_pres (masterIdsOf env) _ hp3))
      intro i hi
      rw [show (scanForIcons env).discoveredIcons =
        ((applyMarkingsToIcons env.markings
          (analyzeIconConsistency (calculateInstanceCounts
            (phase3Pages env.rootName env.previewOf (phase1Result env).2
              (scanPages env)
              (phase2Pages env.rootName env.previewOf (phase1Result env).2
                (scanPages env) (phase1Result env).1))))).filter
          (fun i => decide (i.id ∉ env.ignoredIds))) ++
        (((applyMarkingsToIcons env.markings
          (analyzeIconConsistency (calculateInstanceCounts
            (phase3Pages env.rootName env.previewOf (phase1Result env).2
              (scanPages env)
              (phase2Pages env.rootName env.previewOf (phase1Result env).2
                (scanPages env) (phase1Result env).1))))).filter
          (fun i => decide (i.id ∈ env.ignoredIds))).map
          (fun i => { i with isIgnored := some true })) from by
          unfold scanForIcons
          rw [if_neg hload]] at hi
      rcases List.mem_append.mp hi with h1 | h2
      · exact hpost i (List.mem_filter.mp h1).1
      · obtain ⟨j, hj, hij⟩ := List.mem_map.mp h2
        exact hij ▸ instanceLinked_core rfl rfl
          (hpost j (List.mem_filter.mp hj).1)
    exact hall c hc hs

/-- A 24×24 master component named `iconarrow`, accepted by phase 1. -/
def mCompC8 : FigNode :=
  { id := "m1", name := "iconarrow", type := NodeType.COMPONENT,
    bounds := some (24, 24), childTypes := [NodeType.VECTOR] }

/-- A 24×24 instance node named `iconstar`. -/
def instNodeC8 : FigNode :=
  { id := "i1", name := "iconstar", type := NodeType.INSTANCE,
    bounds := some (24, 24) }

/-- The instance's resolved main component: the phase-1 master. -/
def mcC8 : MainComp := { id := "m1", name := "iconarrow" }

/-- The instance record handed to phase 2. -/
def iNodeC8 : InstNode := { node := instNodeC8, main := some mcC8 }

/-- The single page of the witness document. -/
def pageC8 : PageData :=
  { name := "P", components := [(mCompC8, [])], instances := [iNodeC8],
    unresolvedNodes := [] }

/-- The witness scan environment: one page, one master, one instance. -/
def envC8 : ScanEnv :=
  { pages := [pageC8], rootName := "", currentPageName := "Pg",
    previewOf := fun _ => none, markings := fun _ => none,
    ignoredIds := [], loadOk := true }

/-- The candidate emitted for the master in phase 1. -/
def mIconC8 : IconInfo := masterIconInfo ("") (fun _ => none) ("P") mCompC8 [] 24 24

/-- The candidate emitted for the instance in phase 2. -/
def iIconC8 : IconInfo :=
  instanceIconInfo ("") (fun _ => none) ("P") instNodeC8 mcC8 24 24

/-- The master after instance counting. -/
def mIconC8A : IconInfo := { mIconC8 with instanceCount := some 1 }

/-- The master after the consistency analysis. -/
def mIconC8B : IconInfo :=
  { mIconC8A with isNew := some false, isDuplicate := some false }

/-- The instance after the consistency analysis. -/
def iIconC8B : IconInfo :=
  { iIconC8 with isNew := some false, isDuplicate := some false }

/-- The master as finally reported. -/
def mFinC8 : IconInfo :=
  { mIconC8B with isIgnored := some false, isMarkedForSwap := some false }

/-- The instance as finally reported. -/
def iFinC8 : IconInfo :=
  { iIconC8B with isIgnored := some false, isMarkedForSwap := some false }

theorem c8_like : isLikelyIcon mCompC8 = true := by
  unfold isLikelyIcon
  rw [show mCompC8.bounds = some ((24 : ℚ), (24 : ℚ)) from rfl,
    show mCompC8.type = NodeType.COMPONENT from rfl]
  simp only [show ((NodeType.COMPONENT == NodeType.COMPONENT) ||
      (NodeType.COMPONENT == NodeType.COMPONENT_SET)) = true from rfl, if_true,
    show containsAny (lowerList mCompC8.name.data) componentUITerms = false from by
      decide,
    Bool.false_eq_true, if_false,
    show (NodeType.COMPONENT == NodeType.COMPONENT_SET) = false from rfl,
    show containsAny (lowerList mCompC8.name.data) iconNameMarkers = true from by
      decide,
    Bool.true_or]
  rw [if_neg (show ¬((800 : ℚ) < max 24 24) from by norm_num),
    if_neg (show ¬((24 : ℚ) / 24 < 0.05 ∨ 20 < (24 : ℚ) / 24) from by norm_num)]
  apply decide_eq_true
  omega

theorem c8_phase1Comps :
    phase1Comps envC8.rootName envC8.previewOf ("P") [(mCompC8, [])] [] [] =
      ([mIconC8], ["m1"]) := by
  rw [phase1Comps,
    if_neg (show ¬(isLikelyIcon mCompC8 = false) from by rw [c8_like]; decide)]
  decide

theorem c8_phase1 : phase1Result envC8 = ([mIconC8], ["m1"]) := by
  unfold phase1Result
  have e : phase1Pages envC8.rootName envC8.previewOf (scanPages envC8) ([], []) =
      (if MAX_ICONS ≤ (phase1Comps envC8.rootName envC8.previewOf ("P")
          [(mCompC8, [])] [] []).1.length then
        phase1Comps envC8.rootName envC8.previewOf ("P") [(mCompC8, [])] [] []
      else
        phase1Pages envC8.rootName envC8.previewOf []
          (phase1Comps envC8.rootName envC8.previewOf ("P")
            [(mCompC8, [])] [] [])) := rfl
  rw [e, c8_phase1Comps]
  decide

theorem c8_phase2 :
    phase2Pages envC8.rootName envC8.previewOf ["m1"] [pageC8] [mIconC8] =
      [mIconC8, iIconC8] := by
  decide

theorem c8_phase3 :
    phase3Pages envC8.rootName envC8.previewOf ["m1"] [pageC8]
      [mIconC8, iIconC8] = [mIconC8, iIconC8] := by
  decide

theorem c8_counts :
    calculateInstanceCounts [mIconC8, iIconC8] = [mIconC8A, iIconC8] := by
  decide

theorem c8_analyze :
    analyzeIconConsistency [mIconC8A, iIconC8] = [mIconC8B, iIconC8B] := by
  decide

theorem c8_markings :
    applyMarkingsToIcons envC8.markings [mIconC8B, iIconC8B] =
      [mFinC8, iFinC8] := by
  decide

theorem c8_scan_eval :
    (scanForIcons envC8).discoveredIcons = [mFinC8, iFinC8] := by
  have hload : ¬(envC8.loadOk = false) := by decide
  rw [show (scanForIcons envC8).discoveredIcons =
    ((applyMarkingsToIcons envC8.markings
      (analyzeIconConsistency (calculateInstanceCounts
        (phase3Pages envC8.rootName envC8.previewOf (phase1Result envC8).2
          (scanPages envC8)
          (phase2Pages envC8.rootName envC8.previewOf (phase1Result envC8).2
            (scanPages envC8) (phase1Result envC8).1))))).filter
      (fun i => decide (i.id ∉ envC8.ignoredIds))) ++
    (((applyMarkingsToIcons envC8.markings
      (analyzeIconConsistency (calculateInstanceCounts
        (phase3Pages envC8.rootName envC8.previewOf (phase1Result envC8).2
          (scanPages envC8)
          (phase2Pages envC8.rootName envC8.previewOf (phase1Result envC8).2
            (scanPages envC8) (phase1Result envC8).1))))).filter
      (fun i => decide (i.id ∈ envC8.ignoredIds))).map
      (fun i => { i with isIgnored := some true })) from by
      unfold scanForIcons
      rw [if_neg hload]]
  rw [show scanPages envC8 = [pageC8] from rfl, c8_phase1]
  rw [c8_phase2, c8_phase3, c8_counts, c8_analyze, c8_markings]
  decide

theorem c8_masterIds : masterIdsOf envC8 = ["m1"] := by
  unfold masterIdsOf
  rw [c8_phase1]

/-- Witness for C8: on a one-page document holding the 24×24 component
`iconarrow` and an instance of it, the scan reports the instance candidate
with `masterComponentId` `m1`, which phase 1 recorded as a master id. -/
theorem scan_instance_has_master_witness :
    iFinC8 ∈ (scanForIcons envC8).discoveredIcons ∧
    iFinC8.status = "instance" ∧
    ∃ mid, iFinC8.masterComponentId = some mid ∧ mid ∈ masterIdsOf envC8 := by
  have hmem : iFinC8 ∈ (scanForIcons envC8).discoveredIcons := by
    rw [c8_scan_eval]
    decide
  exact ⟨hmem, by decide,
    scan_instance_has_master envC8 iFinC8 hmem (by decide)⟩

end IconMgmt
